import Mathlib

/-!
# glomap: residual functors and scene primitives

A shallow embedding of `glomap/estimators/cost_function.h`,
`glomap/scene/rigid3d.h` and `glomap/scene/track.h`.

The functors are templates over a scalar type `T`; the embedding keeps them
generic over a field `T` (exact arithmetic; rounding of `double` is not
modelled, and a quotient by zero takes the field's conventional value).
Vectors are functions on `Fin n`, matrices are Mathlib matrices.
-/

namespace glomap

/-- Two-component column vector (`Eigen::Vector2d`). -/
abbrev Vector2 (T : Type) := Fin 2 → T

/-- Three-component column vector (`Eigen::Vector3d`, `Eigen::Matrix<T, 3, 1>`). -/
abbrev Vector3 (T : Type) := Fin 3 → T

/-- Four-component column vector (`Eigen::Vector4d`). -/
abbrev Vector4 (T : Type) := Fin 4 → T

/-- Three by three matrix (`Eigen::Matrix3d`). -/
abbrev Matrix3 (T : Type) := Matrix (Fin 3) (Fin 3) T

/-- Sum of the squared components of a 3-vector (`squaredNorm()`). -/
def squaredNorm {T : Type} [Field T] (v : Vector3 T) : T :=
  v 0 * v 0 + v 1 * v 1 + v 2 * v 2

/-- Sum of the squared components of a 2-vector (`squaredNorm()`). -/
def squaredNorm2 {T : Type} [Field T] (v : Vector2 T) : T :=
  v 0 * v 0 + v 1 * v 1

/-! ## BATAPairwiseDirectionError -/

/-- The functor `BATAPairwiseDirectionError`: it stores the observed translation. -/
structure BATAPairwiseDirectionError (T : Type) where
  translation_obs_ : Vector3 T

/-- The call operator of `BATAPairwiseDirectionError`: the returned flag and
the three residuals written to the output buffer. -/
def BATAPairwiseDirectionError.operator {T : Type} [Field T]
    (self : BATAPairwiseDirectionError T)
    (position1 position2 : Vector3 T) (scale : T) : Bool × Vector3 T :=
  let translation : Vector3 T :=
    ![position2 0 - position1 0, position2 1 - position1 1, position2 2 - position1 2]
  let residual_vec : Vector3 T := self.translation_obs_ - scale • translation
  (true, ![residual_vec 0, residual_vec 1, residual_vec 2])

/-! ## Fetzer decomposition helper -/

/-- The helper `fetzer_d`: the antisymmetric combination for the index pair `(u, v)`. -/
def fetzer_d {T : Type} [Field T] (ai bi aj bj : Vector3 T) (u v : Fin 3) : Vector4 T :=
  ![ai u * aj v - ai v * aj u,
    ai u * bj v - ai v * bj u,
    bi u * aj v - bi v * aj u,
    bi u * bj v - bi v * bj u]

/-- What `Eigen::JacobiSVD<Eigen::Matrix3d>` hands back when asked for full `U` and `V`:
the singular values and the two factor matrices. -/
structure JacobiSVD (T : Type) where
  singularValues : Vector3 T
  matrixU : Matrix3 T
  matrixV : Matrix3 T

/-- The helper `fetzer_ds`. The decomposition routine is a library call, so it is taken
as the argument `svd`. -/
def fetzer_ds {T : Type} [Field T] (svd : Matrix3 T → JacobiSVD T)
    (i1_G_i0 : Matrix3 T) : Fin 3 → Vector4 T :=
  let s : Vector3 T := (svd i1_G_i0).singularValues
  let v_0 : Vector3 T := fun i => (svd i1_G_i0).matrixV i 0
  let v_1 : Vector3 T := fun i => (svd i1_G_i0).matrixV i 1
  let u_0 : Vector3 T := fun i => (svd i1_G_i0).matrixU i 0
  let u_1 : Vector3 T := fun i => (svd i1_G_i0).matrixU i 1
  let ai : Vector3 T :=
    ![s 0 * s 0 * (v_0 0 * v_0 0 + v_0 1 * v_0 1),
      s 0 * s 1 * (v_0 0 * v_1 0 + v_0 1 * v_1 1),
      s 1 * s 1 * (v_1 0 * v_1 0 + v_1 1 * v_1 1)]
  let aj : Vector3 T :=
    ![u_1 0 * u_1 0 + u_1 1 * u_1 1,
      -(u_0 0 * u_1 0 + u_0 1 * u_1 1),
      u_0 0 * u_0 0 + u_0 1 * u_0 1]
  let bi : Vector3 T :=
    ![s 0 * s 0 * v_0 2 * v_0 2,
      s 0 * s 1 * v_0 2 * v_1 2,
      s 1 * s 1 * v_1 2 * v_1 2]
  let bj : Vector3 T :=
    ![u_1 2 * u_1 2, -(u_0 2 * u_1 2), u_0 2 * u_0 2]
  let d_01 : Vector4 T := fetzer_d ai bi aj bj 1 0
  let d_02 : Vector4 T := fetzer_d ai bi aj bj 0 2
  let d_12 : Vector4 T := fetzer_d ai bi aj bj 2 1
  ![d_01, d_02, d_12]

/-- Assignment `M(i, j) = x` to one coefficient of a matrix. -/
def setCoeff {T : Type} (M : Matrix3 T) (i j : Fin 3) (x : T) : Matrix3 T :=
  Matrix.of fun a b => if a = i ∧ b = j then x else M a b

/-- The matrix `i1_G_i0 = K1.transpose() * i1_F_i0 * K0` both constructors decompose,
`K0` and `K1` being the identity with the principal point written into the last column. -/
def geometryMatrix {T : Type} [Field T] (i1_F_i0 : Matrix3 T)
    (principal_point0 principal_point1 : Vector2 T) : Matrix3 T :=
  let K0 : Matrix3 T := setCoeff (setCoeff 1 0 2 (principal_point0 0)) 1 2 (principal_point0 1)
  let K1 : Matrix3 T := setCoeff (setCoeff 1 0 2 (principal_point1 0)) 1 2 (principal_point1 1)
  K1.transpose * i1_F_i0 * K0

/-! ## FetzerFocalLengthCost -/

/-- The functor `FetzerFocalLengthCost`: it stores the three coefficient vectors. -/
structure FetzerFocalLengthCost (T : Type) where
  d_01 : Vector4 T
  d_02 : Vector4 T
  d_12 : Vector4 T

/-- The constructor of `FetzerFocalLengthCost`. -/
def FetzerFocalLengthCost.new {T : Type} [Field T] (svd : Matrix3 T → JacobiSVD T)
    (i1_F_i0 : Matrix3 T) (principal_point0 principal_point1 : Vector2 T) :
    FetzerFocalLengthCost T :=
  let K0 : Matrix3 T := setCoeff (setCoeff 1 0 2 (principal_point0 0)) 1 2 (principal_point0 1)
  let K1 : Matrix3 T := setCoeff (setCoeff 1 0 2 (principal_point1 0)) 1 2 (principal_point1 1)
  let i1_G_i0 : Matrix3 T := K1.transpose * i1_F_i0 * K0
  let ds := fetzer_ds svd i1_G_i0
  { d_01 := ds 0, d_02 := ds 1, d_12 := ds 2 }

/-- The call operator of `FetzerFocalLengthCost`: the returned flag and the two
residuals. -/
def FetzerFocalLengthCost.operator {T : Type} [Field T] (self : FetzerFocalLengthCost T)
    (fi_ fj_ : T) : Bool × Vector2 T :=
  let d_01_ : Vector4 T := self.d_01
  let d_12_ : Vector4 T := self.d_12
  let fi : T := fi_
  let fj : T := fj_
  let K0_01 : T := -(fj * fj * d_01_ 2 + d_01_ 3) / (fj * fj * d_01_ 0 + d_01_ 1)
  let K1_12 : T := -(fi * fi * d_12_ 1 + d_12_ 3) / (fi * fi * d_12_ 0 + d_12_ 2)
  (true, ![(fi * fi - K0_01) / (fi * fi), (fj * fj - K1_12) / (fj * fj)])

/-! ## FetzerFocalLengthSameCameraCost -/

/-- The functor `FetzerFocalLengthSameCameraCost`. -/
structure FetzerFocalLengthSameCameraCost (T : Type) where
  d_01 : Vector4 T
  d_02 : Vector4 T
  d_12 : Vector4 T

/-- The constructor of `FetzerFocalLengthSameCameraCost`. -/
def FetzerFocalLengthSameCameraCost.new {T : Type} [Field T]
    (svd : Matrix3 T → JacobiSVD T)
    (i1_F_i0 : Matrix3 T) (principal_point : Vector2 T) :
    FetzerFocalLengthSameCameraCost T :=
  let K0 : Matrix3 T := setCoeff (setCoeff 1 0 2 (principal_point 0)) 1 2 (principal_point 1)
  let K1 : Matrix3 T := setCoeff (setCoeff 1 0 2 (principal_point 0)) 1 2 (principal_point 1)
  let i1_G_i0 : Matrix3 T := K1.transpose * i1_F_i0 * K0
  let ds := fetzer_ds svd i1_G_i0
  { d_01 := ds 0, d_02 := ds 1, d_12 := ds 2 }

/-- The call operator of `FetzerFocalLengthSameCameraCost`: one focal length plays
both roles. -/
def FetzerFocalLengthSameCameraCost.operator {T : Type} [Field T]
    (self : FetzerFocalLengthSameCameraCost T) (fi_ : T) : Bool × Vector2 T :=
  let d_01_ : Vector4 T := self.d_01
  let d_12_ : Vector4 T := self.d_12
  let fi : T := fi_
  let fj : T := fi_
  let K0_01 : T := -(fj * fj * d_01_ 2 + d_01_ 3) / (fj * fj * d_01_ 0 + d_01_ 1)
  let K1_12 : T := -(fi * fi * d_12_ 1 + d_12_ 3) / (fi * fi * d_12_ 0 + d_12_ 2)
  (true, ![(fi * fi - K0_01) / (fi * fi), (fj * fj - K1_12) / (fj * fj)])

/-! ## Rigid3d -/

/-- Cross product of two 3-vectors (`a.cross(b)`). -/
def cross {T : Type} [Field T] (a b : Vector3 T) : Vector3 T :=
  ![a 1 * b 2 - a 2 * b 1, a 2 * b 0 - a 0 * b 2, a 0 * b 1 - a 1 * b 0]

/-- Modelled from the spec: the rotation of a rigid transform is a quaternion with real
part `w` and imaginary part `(x, y, z)`; the quaternion type itself comes from the linear
algebra library and is missing from the sources. -/
structure Quaterniond (T : Type) where
  w : T
  x : T
  y : T
  z : T

/-- The imaginary part of a quaternion as a 3-vector (`vec()`). -/
def Quaterniond.vec {T : Type} (q : Quaterniond T) : Vector3 T :=
  ![q.x, q.y, q.z]

/-- The squared norm of a quaternion (`squaredNorm()`). -/
def Quaterniond.squaredNorm {T : Type} [Field T] (q : Quaterniond T) : T :=
  q.w * q.w + q.x * q.x + q.y * q.y + q.z * q.z

/-- The conjugate quaternion (`conjugate()`). -/
def Quaterniond.conjugate {T : Type} [Field T] (q : Quaterniond T) : Quaterniond T :=
  { w := q.w, x := -q.x, y := -q.y, z := -q.z }

/-- Modelled from the spec: the inverse rotation, missing from the sources (library
code): the conjugate divided by the squared norm, and the zero quaternion when the
squared norm is not positive. -/
def Quaterniond.inverse {T : Type} [LinearOrderedField T] (q : Quaterniond T) :
    Quaterniond T :=
  let n2 : T := q.squaredNorm
  if 0 < n2 then
    { w := q.conjugate.w / n2, x := q.conjugate.x / n2,
      y := q.conjugate.y / n2, z := q.conjugate.z / n2 }
  else
    { w := 0, x := 0, y := 0, z := 0 }

/-- Modelled from the spec: rotating a point by a quaternion (`rotation * point`), missing
from the sources (library code): `v + w * uv + vec × uv` with `uv = 2 (vec × v)`. -/
def Quaterniond.transformVector {T : Type} [Field T] (q : Quaterniond T)
    (v : Vector3 T) : Vector3 T :=
  let uv : Vector3 T := cross q.vec v
  let uv : Vector3 T := uv + uv
  v + q.w • uv + cross q.vec uv

/-- The struct `Rigid3d`: the fields of the base transform it extends. -/
structure Rigid3d (T : Type) where
  rotation : Quaterniond T
  translation : Vector3 T

/-- The method `Rigid3d::Rotate`. -/
def Rigid3d.Rotate {T : Type} [Field T] (self : Rigid3d T) (point : Vector3 T) : Vector3 T :=
  self.rotation.transformVector point

/-- The method `Rigid3d::Derotate`. -/
def Rigid3d.Derotate {T : Type} [LinearOrderedField T] (self : Rigid3d T)
    (point : Vector3 T) : Vector3 T :=
  self.rotation.inverse.transformVector point

/-! ## Track -/

/-- The pair type `Observation`: image identifier and feature identifier. -/
abbrev Observation (image_t feature_t : Type) := image_t × feature_t

/-- The struct `Track`. The identifier types come from a header that is not part of the
sources and are type arguments. -/
structure Track (T track_t image_t feature_t : Type) where
  track_id : track_t
  xyz : Vector3 T
  color : Fin 3 → Fin 256
  is_initialized : Bool
  observations : List (Observation image_t feature_t)

/-- A default-constructed `Track`: every member with a default initializer takes it, the
observation list is empty, and the identifier, which has none, is whatever it is given. -/
def Track.default {T track_t image_t feature_t : Type} [Field T] (track_id : track_t) :
    Track T track_t image_t feature_t :=
  { track_id := track_id
    xyz := 0
    color := 0
    is_initialized := false
    observations := [] }

/-- Appending one observation at the end of the observation list
(`observations.push_back(obs)`). -/
def Track.push_back {T track_t image_t feature_t : Type}
    (self : Track T track_t image_t feature_t) (obs : Observation image_t feature_t) :
    Track T track_t image_t feature_t :=
  { self with observations := self.observations ++ [obs] }

/-! ## Two-view geometry vocabulary used by the statements -/

/-- The decomposition contract of the library routine: `r` is a singular value
decomposition of `G` (orthogonal factors, singular values non-negative and sorted
in decreasing order, `G = U diag(s) Vᵀ`). -/
structure JacobiSVD.IsDecompositionOf {T : Type} [LinearOrderedField T]
    (r : JacobiSVD T) (G : Matrix3 T) : Prop where
  orthogonalU : r.matrixU.transpose * r.matrixU = 1
  orthogonalV : r.matrixV.transpose * r.matrixV = 1
  sorted01 : r.singularValues 1 ≤ r.singularValues 0
  sorted12 : r.singularValues 2 ≤ r.singularValues 1
  nonneg : 0 ≤ r.singularValues 2
  factors : G = r.matrixU * Matrix.diagonal r.singularValues * r.matrixV.transpose

/-- The skew-symmetric matrix of the cross product with `t`. -/
def skew {T : Type} [Field T] (t : Vector3 T) : Matrix3 T :=
  !![0, -t 2, t 1; t 2, 0, -t 0; -t 1, t 0, 0]

/-- An essential matrix: a skew-symmetric matrix times a rotation. -/
def IsEssential {T : Type} [Field T] (E : Matrix3 T) : Prop :=
  ∃ (t : Vector3 T) (R : Matrix3 T), R.transpose * R = 1 ∧ R.det = 1 ∧ E = skew t * R

/-- The intrinsic matrix `[[f, 0, px], [0, f, py], [0, 0, 1]]` of a camera with focal
length `f` and principal point `pp`. -/
def intrinsics {T : Type} [Field T] (f : T) (pp : Vector2 T) : Matrix3 T :=
  !![f, 0, pp 0; 0, f, pp 1; 0, 0, 1]

/-! ## Inputs used by the closed statements -/

/-- A concrete observation functor: the observation is `2 * (p2 - p1)` for
`p1 = (1, 2, 3)`, `p2 = (2, 4, 7)`. -/
def bataSample : BATAPairwiseDirectionError ℚ :=
  { translation_obs_ := (2 : ℚ) • ((![2, 4, 7] : Vector3 ℚ) - ![1, 2, 3]) }

/-- A functor whose two positions coincide: the observation is `1 * (p - p)`
for `p = (1, 2, 3)`. -/
def bataCoincident : BATAPairwiseDirectionError ℚ :=
  { translation_obs_ := (1 : ℚ) • ((![1, 2, 3] : Vector3 ℚ) - ![1, 2, 3]) }

/-- The unit quaternion `(1/2, 1/2, 1/2, 1/2)` with translation `(5, 6, 7)`. -/
def rigidSample : Rigid3d ℚ :=
  { rotation := { w := 1 / 2, x := 1 / 2, y := 1 / 2, z := 1 / 2 }
    translation := ![5, 6, 7] }

/-- A decomposition routine that answers every input with zero singular values and
identity factors: on the zero matrix this is a singular value decomposition. -/
def svdOfZero : Matrix3 ℚ → JacobiSVD ℚ :=
  fun _ => { singularValues := 0, matrixU := 1, matrixV := 1 }

/-- Left factor of the sample decomposition: an orthogonal matrix with rational entries. -/
def sampleU : Matrix3 ℚ :=
  !![5 / 21, 20 / 21, -4 / 21; -4 / 21, 5 / 21, 20 / 21; 20 / 21, -4 / 21, 5 / 21]

/-- Right factor of the sample decomposition: an orthogonal matrix with rational entries. -/
def sampleV : Matrix3 ℚ :=
  !![-5 / 21, 20 / 21, 4 / 21; -4 / 21, -5 / 21, 20 / 21; 20 / 21, 4 / 21, 5 / 21]

/-- A decomposition routine that always answers with singular values `(9, 1, 0)` and the
factors `sampleU`, `sampleV`; it is a singular value decomposition of `sampleG`. -/
def sampleSvd : Matrix3 ℚ → JacobiSVD ℚ :=
  fun _ => { singularValues := ![9, 1, 0], matrixU := sampleU, matrixV := sampleV }

/-- The sample principal point `(1, 2)`, shared by both images. -/
def samplePP : Vector2 ℚ := ![1, 2]

/-- The sample two-view matrix: with principal point `(1, 2)` and focal length `8` in both
images it is the essential matrix `skew sampleT * sampleR` seen in pixel coordinates. -/
def sampleF : Matrix3 ℚ :=
  !![25 / 63, -40 / 63, 65 / 21; 40 / 63, 17 / 63, -58 / 21; -35 / 9, -94 / 63, 335 / 21]

/-- The matrix `K1ᵀ F K0` of the sample. -/
def sampleG : Matrix3 ℚ :=
  !![25 / 63, -40 / 63, 20 / 9; 40 / 63, 17 / 63, -100 / 63; -20 / 9, -100 / 63, 512 / 63]

/-- The rotation of the sample relative pose. -/
def sampleR : Matrix3 ℚ :=
  !![23 / 27, 10 / 27, -10 / 27; -10 / 27, 25 / 27, 2 / 27; 10 / 27, 2 / 27, 25 / 27]

/-- The translation of the sample relative pose. -/
def sampleT : Vector3 ℚ := ![-32 / 7, 160 / 7, 320 / 7]

/-! ## Variations of a decomposition result -/

/-- The matrix `M` with column `c` negated. -/
def negateColumn {T : Type} [Field T] (M : Matrix3 T) (c : Fin 3) : Matrix3 T :=
  Matrix.of fun i j => if j = c then -M i j else M i j

/-- The matrix `M` with its third column replaced by `w`. -/
def replaceThirdColumn {T : Type} (M : Matrix3 T) (w : Vector3 T) : Matrix3 T :=
  Matrix.of fun i j => if j = 2 then w i else M i j

/-- The decomposition result with the third singular value and the third singular vectors
replaced by arbitrary ones. -/
def JacobiSVD.withThird {T : Type} (r : JacobiSVD T) (x : T) (u2 v2 : Vector3 T) :
    JacobiSVD T :=
  { singularValues := ![r.singularValues 0, r.singularValues 1, x]
    matrixU := replaceThirdColumn r.matrixU u2
    matrixV := replaceThirdColumn r.matrixV v2 }

/-- The decomposition result with the singular vector pair `(u_c, v_c)` replaced by
`(-u_c, -v_c)`: the other sign choice for the same matrix. -/
def JacobiSVD.flipPair {T : Type} [Field T] (r : JacobiSVD T) (c : Fin 3) : JacobiSVD T :=
  { singularValues := r.singularValues
    matrixU := negateColumn r.matrixU c
    matrixV := negateColumn r.matrixV c }

/-- The decomposition result with the two leading singular values multiplied by `c`, the
third replaced by `x`, and the same singular vectors. -/
def JacobiSVD.scaleLeading {T : Type} [Field T] (r : JacobiSVD T) (c x : T) : JacobiSVD T :=
  { singularValues := ![c * r.singularValues 0, c * r.singularValues 1, x]
    matrixU := r.matrixU
    matrixV := r.matrixV }

/-- A decomposition routine that always answers with singular values `(9, 0, 0)` and the
factors `sampleU`, `sampleV`: the decomposition of a rank-one matrix. -/
def sampleSvdRankOne : Matrix3 ℚ → JacobiSVD ℚ :=
  fun _ => { singularValues := ![9, 0, 0], matrixU := sampleU, matrixV := sampleV }

/-- A two-camera functor with hand-picked coefficient vectors. -/
def fetzerSample : FetzerFocalLengthCost ℚ :=
  { d_01 := ![1, 2, 3, 4], d_02 := ![0, 0, 0, 0], d_12 := ![1, -2, 3, -4] }

end glomap

namespace glomap
open Matrix

/-! ## BATAPairwiseDirectionError: statements -/

theorem bata_residual_apply {T : Type} [Field T] (t_obs position1 position2 : Vector3 T)
    (scale : T) (k : Fin 3) :
    ((BATAPairwiseDirectionError.mk t_obs).operator position1 position2 scale).2 k
      = t_obs k - scale * (position2 k - position1 k) := by
  fin_cases k <;> simp [BATAPairwiseDirectionError.operator]

/-- C1: for every observation, positions and scale the call operator reports success and
writes the residual whose `k`-th component is `t_obs[k] - scale * (position2[k] - position1[k])`. -/
theorem bata_operator_residual {T : Type} [Field T] (t_obs position1 position2 : Vector3 T)
    (scale : T) :
    ((BATAPairwiseDirectionError.mk t_obs).operator position1 position2 scale).1 = true ∧
    ∀ k : Fin 3,
      ((BATAPairwiseDirectionError.mk t_obs).operator position1 position2 scale).2 k
        = t_obs k - scale * (position2 k - position1 k) :=
  ⟨rfl, fun k => bata_residual_apply t_obs position1 position2 scale k⟩

/-- C2: the residual is the zero vector exactly when `t_obs = scale * (position2 - position1)`;
in particular a functor built from `s * (p2 - p1)` with `s > 0` has zero residual at
`(p1, p2, s)`. -/
theorem bata_residual_zero_iff {T : Type} [LinearOrderedField T]
    (t_obs position1 position2 : Vector3 T) (scale : T) (p1 p2 : Vector3 T) (s : T)
    (hs : 0 < s) :
    (((BATAPairwiseDirectionError.mk t_obs).operator position1 position2 scale).2 = 0
        ↔ t_obs = scale • (position2 - position1)) ∧
    ((BATAPairwiseDirectionError.mk (s • (p2 - p1))).operator p1 p2 s).2 = 0 := by
  have _hs := hs
  constructor
  · constructor
    · intro h
      funext k
      have hk := bata_residual_apply t_obs position1 position2 scale k
      rw [h] at hk
      simp only [Pi.zero_apply] at hk
      simp only [Pi.smul_apply, Pi.sub_apply, smul_eq_mul]
      exact (sub_eq_zero.mp hk.symm)
    · intro h
      funext k
      rw [bata_residual_apply, h]
      simp
  · funext k
    rw [bata_residual_apply]
    simp

/-- C2, at a concrete input: scale `2 > 0`, `p1 = (1, 2, 3)`, `p2 = (2, 4, 7)`. -/
theorem bata_residual_zero_iff_witness :
    ((0 : ℚ) < 2) ∧
    (((BATAPairwiseDirectionError.mk (![1, 0, 0] : Vector3 ℚ)).operator
          ![0, 0, 0] ![1, 1, 1] 3).2 = 0
        ↔ (![1, 0, 0] : Vector3 ℚ) = (3 : ℚ) • ((![1, 1, 1] : Vector3 ℚ) - ![0, 0, 0])) ∧
    ((BATAPairwiseDirectionError.mk
        ((2 : ℚ) • ((![2, 4, 7] : Vector3 ℚ) - ![1, 2, 3]))).operator
          ![1, 2, 3] ![2, 4, 7] 2).2 = 0 :=
  ⟨by norm_num,
   bata_residual_zero_iff (![1, 0, 0] : Vector3 ℚ) ![0, 0, 0] ![1, 1, 1] 3
     ![1, 2, 3] ![2, 4, 7] 2 (by norm_num)⟩

theorem bata_squaredNorm_at_scale {T : Type} [Field T] (p1 p2 : Vector3 T) (s s1 : T) :
    squaredNorm ((BATAPairwiseDirectionError.mk (s • (p2 - p1))).operator p1 p2 s1).2
      = (s1 - s) ^ 2 * squaredNorm (p2 - p1) := by
  simp only [squaredNorm, bata_residual_apply, Pi.smul_apply, Pi.sub_apply, smul_eq_mul]
  ring

theorem squaredNorm_nonneg {T : Type} [LinearOrderedField T] (v : Vector3 T) :
    0 ≤ squaredNorm v := by
  unfold squaredNorm
  nlinarith [mul_self_nonneg (v 0), mul_self_nonneg (v 1), mul_self_nonneg (v 2)]

theorem squaredNorm_sub_pos {T : Type} [LinearOrderedField T] (p1 p2 : Vector3 T)
    (h : p1 ≠ p2) : 0 < squaredNorm (p2 - p1) := by
  rcases lt_or_eq_of_le (squaredNorm_nonneg (p2 - p1)) with hpos | hzero
  · exact hpos
  · exfalso
    apply h
    have h0 := mul_self_nonneg (p2 0 - p1 0)
    have h1 := mul_self_nonneg (p2 1 - p1 1)
    have h2 := mul_self_nonneg (p2 2 - p1 2)
    simp only [squaredNorm, Pi.sub_apply] at hzero
    have e0 : (p2 0 - p1 0) * (p2 0 - p1 0) = 0 := by linarith
    have e1 : (p2 1 - p1 1) * (p2 1 - p1 1) = 0 := by linarith
    have e2 : (p2 2 - p1 2) * (p2 2 - p1 2) = 0 := by linarith
    funext k
    fin_cases k
    · exact (sub_eq_zero.mp (mul_self_eq_zero.mp e0)).symm
    · exact (sub_eq_zero.mp (mul_self_eq_zero.mp e1)).symm
    · exact (sub_eq_zero.mp (mul_self_eq_zero.mp e2)).symm

/-- C3, as stated, fails: with coinciding positions `p1 = p2 = (1, 2, 3)` and true scale `1`
the residual vanishes at every scale, so the squared norm at `s' = 1` is not strictly
below the one at `s'' = 2` although `|s' - 1| < |s'' - 1|`. -/
theorem bata_scale_strict_counterexample :
    |(1 : ℚ) - 1| < |(2 : ℚ) - 1| ∧
    ¬ (squaredNorm (bataCoincident.operator ![1, 2, 3] ![1, 2, 3] 1).2
        < squaredNorm (bataCoincident.operator ![1, 2, 3] ![1, 2, 3] 2).2) := by
  refine ⟨by norm_num, ?_⟩
  simp only [bataCoincident, bata_squaredNorm_at_scale]
  norm_num [squaredNorm]

/-- C3, amended: for a functor built from `s * (p2 - p1)` the squared residual norm at
`(p1, p2, s')` is monotone in `|s' - s|`; it is strictly monotone when `p1 ≠ p2`. -/
theorem bata_scale_monotone {T : Type} [LinearOrderedField T] (p1 p2 : Vector3 T)
    (s s' s'' : T) :
    (|s' - s| ≤ |s'' - s| →
      squaredNorm ((BATAPairwiseDirectionError.mk (s • (p2 - p1))).operator p1 p2 s').2
        ≤ squaredNorm ((BATAPairwiseDirectionError.mk (s • (p2 - p1))).operator p1 p2 s'').2) ∧
    (|s' - s| < |s'' - s| → p1 ≠ p2 →
      squaredNorm ((BATAPairwiseDirectionError.mk (s • (p2 - p1))).operator p1 p2 s').2
        < squaredNorm ((BATAPairwiseDirectionError.mk (s • (p2 - p1))).operator p1 p2 s'').2) := by
  rw [bata_squaredNorm_at_scale, bata_squaredNorm_at_scale]
  constructor
  · intro h
    exact mul_le_mul_of_nonneg_right (sq_le_sq.mpr h) (squaredNorm_nonneg _)
  · intro h hne
    exact mul_lt_mul_of_pos_right (sq_lt_sq.mpr h) (squaredNorm_sub_pos p1 p2 hne)

/-- C3, amended, at a concrete input: `p1 = (1, 2, 3)`, `p2 = (2, 4, 7)`, true scale `2`,
compared scales `3` and `5`. -/
theorem bata_scale_monotone_witness :
    (|(3 : ℚ) - 2| < |(5 : ℚ) - 2|) ∧ ((![1, 2, 3] : Vector3 ℚ) ≠ ![2, 4, 7]) ∧
    squaredNorm (bataSample.operator ![1, 2, 3] ![2, 4, 7] 3).2
      ≤ squaredNorm (bataSample.operator ![1, 2, 3] ![2, 4, 7] 5).2 ∧
    squaredNorm (bataSample.operator ![1, 2, 3] ![2, 4, 7] 3).2
      < squaredNorm (bataSample.operator ![1, 2, 3] ![2, 4, 7] 5).2 := by
  have hlt : |(3 : ℚ) - 2| < |(5 : ℚ) - 2| := by norm_num
  have hne : (![1, 2, 3] : Vector3 ℚ) ≠ ![2, 4, 7] := by
    intro h
    have := congrFun h 0
    norm_num at this
  exact ⟨hlt, hne,
    (bata_scale_monotone (![1, 2, 3] : Vector3 ℚ) ![2, 4, 7] 2 3 5).1 hlt.le,
    (bata_scale_monotone (![1, 2, 3] : Vector3 ℚ) ![2, 4, 7] 2 3 5).2 hlt hne⟩

/-! ## Fetzer cost functors: the formula -/

/-- C4: for every stored coefficient vectors and every focal lengths the call operator
reports success and writes `residual[0] = (fi² - K0_01)/fi²`, `residual[1] = (fj² - K1_12)/fj²`
with `K0_01 = -(fj² d_01(2) + d_01(3)) / (fj² d_01(0) + d_01(1))` and
`K1_12 = -(fi² d_12(1) + d_12(3)) / (fi² d_12(0) + d_12(2))`. -/
theorem fetzer_operator_residual {T : Type} [Field T] (d_01 d_02 d_12 : Vector4 T)
    (fi fj : T) :
    ((FetzerFocalLengthCost.mk d_01 d_02 d_12).operator fi fj).1 = true ∧
    ((FetzerFocalLengthCost.mk d_01 d_02 d_12).operator fi fj).2 0
      = (fi ^ 2 - -(fj ^ 2 * d_01 2 + d_01 3) / (fj ^ 2 * d_01 0 + d_01 1)) / fi ^ 2 ∧
    ((FetzerFocalLengthCost.mk d_01 d_02 d_12).operator fi fj).2 1
      = (fj ^ 2 - -(fi ^ 2 * d_12 1 + d_12 3) / (fi ^ 2 * d_12 0 + d_12 2)) / fj ^ 2 := by
  refine ⟨rfl, ?_, ?_⟩ <;> simp [FetzerFocalLengthCost.operator, sq]

/-- C5: the same-camera functor built from `(F, pp)` and evaluated at `f` gives the same
result as the two-camera functor built from `(F, pp, pp)` and evaluated at `(f, f)`, the
decomposition routine being the same. -/
theorem sameCamera_eq_twoCamera {T : Type} [Field T] (svd : Matrix3 T → JacobiSVD T)
    (F : Matrix3 T) (pp : Vector2 T) (f : T) :
    (FetzerFocalLengthSameCameraCost.new svd F pp).operator f
      = (FetzerFocalLengthCost.new svd F pp pp).operator f f := by
  rfl

/-! ## The Kruppa relations behind the Fetzer coefficients -/

theorem cross_parallel {T : Type} [Field T] (t0 t1 t2 z0 z1 z2 : T)
    (hc0 : t1 * z2 - t2 * z1 = 0) (hc1 : t2 * z0 - t0 * z2 = 0)
    (hc2 : t0 * z1 - t1 * z0 = 0) :
    (z0 * z0 + z1 * z1 + z2 * z2) * t0 = (t0 * z0 + t1 * z1 + t2 * z2) * z0 ∧
    (z0 * z0 + z1 * z1 + z2 * z2) * t1 = (t0 * z0 + t1 * z1 + t2 * z2) * z1 ∧
    (z0 * z0 + z1 * z1 + z2 * z2) * t2 = (t0 * z0 + t1 * z1 + t2 * z2) * z2 := by
  refine ⟨?_, ?_, ?_⟩
  · linear_combination z1 * hc2 - z2 * hc1
  · linear_combination z2 * hc0 - z0 * hc2
  · linear_combination z0 * hc1 - z1 * hc0

theorem sum_three_squares_eq_zero {T : Type} [LinearOrderedField T] (a b c : T)
    (h : a * a + b * b + c * c = 0) : a = 0 ∧ b = 0 ∧ c = 0 := by
  have ha := mul_self_nonneg a
  have hb := mul_self_nonneg b
  have hc := mul_self_nonneg c
  refine ⟨?_, ?_, ?_⟩
  · exact mul_self_eq_zero.mp (by linarith)
  · exact mul_self_eq_zero.mp (by linarith)
  · exact mul_self_eq_zero.mp (by linarith)

/-- Entries of an orthogonal 3×3 matrix: the cross product of the third and first
columns is `det U` times the second, and so on. -/
theorem orthogonal_cofactor {T : Type} [Field T] (U : Matrix3 T) (hU : U.transpose * U = 1) :
    (U.det * U.det = 1) ∧
    (U 1 2 * U 2 0 - U 2 2 * U 1 0 = U.det * U 0 1 ∧
     U 2 2 * U 0 0 - U 0 2 * U 2 0 = U.det * U 1 1 ∧
     U 0 2 * U 1 0 - U 1 2 * U 0 0 = U.det * U 2 1) ∧
    (U 1 2 * U 2 1 - U 2 2 * U 1 1 = -(U.det * U 0 0) ∧
     U 2 2 * U 0 1 - U 0 2 * U 2 1 = -(U.det * U 1 0) ∧
     U 0 2 * U 1 1 - U 1 2 * U 0 1 = -(U.det * U 2 0)) := by
  have hU' : U * U.transpose = 1 := (Matrix.mul_eq_one_comm).mp hU
  have hdet : U.det * U.det = 1 := by
    have := congrArg Matrix.det hU
    rw [Matrix.det_mul, Matrix.det_transpose, Matrix.det_one] at this
    exact this
  have r : ∀ i j : Fin 3, U i 0 * U j 0 + U i 1 * U j 1 + U i 2 * U j 2
      = if i = j then 1 else 0 := by
    intro i j
    have := congrFun (congrFun hU' i) j
    rw [Matrix.mul_apply, Fin.sum_univ_three] at this
    simpa [Matrix.one_apply] using this
  have r00 := r 0 0
  have r01 := r 0 1
  have r02 := r 0 2
  have r11 := r 1 1
  have r12 := r 1 2
  have r22 := r 2 2
  have r10 := r 1 0
  have r20 := r 2 0
  have r21 := r 2 1
  simp at r00 r01 r02 r11 r12 r22 r10 r20 r21
  rw [Matrix.det_fin_three] at hdet ⊢
  refine ⟨hdet, ⟨?_, ?_, ?_⟩, ⟨?_, ?_, ?_⟩⟩
  · linear_combination (-(U 1 2 * U 2 0 - U 2 2 * U 1 0)) * r00
      + (-(U 2 2 * U 0 0 - U 0 2 * U 2 0)) * r01
      + (-(U 0 2 * U 1 0 - U 1 2 * U 0 0)) * r02
  · linear_combination (-(U 1 2 * U 2 0 - U 2 2 * U 1 0)) * r10
      + (-(U 2 2 * U 0 0 - U 0 2 * U 2 0)) * r11
      + (-(U 0 2 * U 1 0 - U 1 2 * U 0 0)) * r12
  · linear_combination (-(U 1 2 * U 2 0 - U 2 2 * U 1 0)) * r20
      + (-(U 2 2 * U 0 0 - U 0 2 * U 2 0)) * r21
      + (-(U 0 2 * U 1 0 - U 1 2 * U 0 0)) * r22
  · linear_combination (-(U 1 2 * U 2 1 - U 2 2 * U 1 1)) * r00
      + (-(U 2 2 * U 0 1 - U 0 2 * U 2 1)) * r01
      + (-(U 0 2 * U 1 1 - U 1 2 * U 0 1)) * r02
  · linear_combination (-(U 1 2 * U 2 1 - U 2 2 * U 1 1)) * r10
      + (-(U 2 2 * U 0 1 - U 0 2 * U 2 1)) * r11
      + (-(U 0 2 * U 1 1 - U 1 2 * U 0 1)) * r12
  · linear_combination (-(U 1 2 * U 2 1 - U 2 2 * U 1 1)) * r20
      + (-(U 2 2 * U 0 1 - U 0 2 * U 2 1)) * r21
      + (-(U 0 2 * U 1 1 - U 1 2 * U 0 1)) * r22

theorem kruppa_gram {T : Type} [Field T] (U V R : Matrix3 T) (s t : Vector3 T) (f1 f2 : T)
    (hU : U.transpose * U = 1) (hR : R.transpose * R = 1)
    (hE : Matrix.diagonal ![f2, f2, 1] * (U * Matrix.diagonal s * V.transpose)
        * Matrix.diagonal ![f1, f1, 1] = skew t * R) :
    (f2 * f2) • ((Matrix.diagonal s * V.transpose * Matrix.diagonal ![f1, f1, 1])
        * (Matrix.diagonal s * V.transpose * Matrix.diagonal ![f1, f1, 1]).transpose)
      = (U.transpose * Matrix.diagonal ![1, 1, f2] * skew t)
        * (U.transpose * Matrix.diagonal ![1, 1, f2] * skew t).transpose := by
  have hR' : R * R.transpose = 1 := (Matrix.mul_eq_one_comm).mp hR
  have hCD : Matrix.diagonal ![1, 1, f2] * Matrix.diagonal ![f2, f2, 1]
      = f2 • (1 : Matrix3 T) := by
    rw [Matrix.diagonal_mul_diagonal, Matrix.smul_one_eq_diagonal]
    refine congrArg Matrix.diagonal ?_
    funext i
    fin_cases i <;> simp
  have hH : U.transpose * (U * Matrix.diagonal s * V.transpose) * Matrix.diagonal ![f1, f1, 1]
      = Matrix.diagonal s * V.transpose * Matrix.diagonal ![f1, f1, 1] := by
    rw [← Matrix.mul_assoc, ← Matrix.mul_assoc, hU, Matrix.one_mul]
  have h3 : f2 • (Matrix.diagonal s * V.transpose * Matrix.diagonal ![f1, f1, 1])
      = (U.transpose * Matrix.diagonal ![1, 1, f2] * skew t) * R := by
    calc f2 • (Matrix.diagonal s * V.transpose * Matrix.diagonal ![f1, f1, 1])
        = f2 • (U.transpose * (U * Matrix.diagonal s * V.transpose)
            * Matrix.diagonal ![f1, f1, 1]) := by rw [hH]
      _ = U.transpose * (Matrix.diagonal ![1, 1, f2] * Matrix.diagonal ![f2, f2, 1])
            * (U * Matrix.diagonal s * V.transpose) * Matrix.diagonal ![f1, f1, 1] := by
          rw [hCD]
          simp only [Matrix.mul_smul, Matrix.smul_mul, Matrix.mul_one]
      _ = U.transpose * Matrix.diagonal ![1, 1, f2]
            * (Matrix.diagonal ![f2, f2, 1] * (U * Matrix.diagonal s * V.transpose)
              * Matrix.diagonal ![f1, f1, 1]) := by
          simp only [Matrix.mul_assoc]
      _ = U.transpose * Matrix.diagonal ![1, 1, f2] * (skew t * R) := by rw [hE]
      _ = (U.transpose * Matrix.diagonal ![1, 1, f2] * skew t) * R := by
          simp only [Matrix.mul_assoc]
  have h4 : (f2 • (Matrix.diagonal s * V.transpose * Matrix.diagonal ![f1, f1, 1]))
      * (f2 • (Matrix.diagonal s * V.transpose * Matrix.diagonal ![f1, f1, 1])).transpose
      = (U.transpose * Matrix.diagonal ![1, 1, f2] * skew t)
        * (U.transpose * Matrix.diagonal ![1, 1, f2] * skew t).transpose := by
    rw [h3, Matrix.transpose_mul, Matrix.mul_assoc, ← Matrix.mul_assoc R, hR', Matrix.one_mul]
  rw [← h4]
  simp only [Matrix.transpose_smul, Matrix.mul_smul, Matrix.smul_mul, smul_smul]

theorem kruppa_entries {T : Type} [Field T] (U V R : Matrix3 T) (s t : Vector3 T) (f1 f2 : T)
    (hU : U.transpose * U = 1) (hR : R.transpose * R = 1)
    (hE : Matrix.diagonal ![f2, f2, 1] * (U * Matrix.diagonal s * V.transpose)
        * Matrix.diagonal ![f1, f1, 1] = skew t * R) (a b : Fin 3) :
    f2 * f2 * (s a * s b * (f1 * f1 * (V 0 a * V 0 b + V 1 a * V 1 b) + V 2 a * V 2 b))
      = (U 1 a * t 2 - f2 * U 2 a * t 1) * (U 1 b * t 2 - f2 * U 2 b * t 1)
        + (f2 * U 2 a * t 0 - U 0 a * t 2) * (f2 * U 2 b * t 0 - U 0 b * t 2)
        + (U 0 a * t 1 - U 1 a * t 0) * (U 0 b * t 1 - U 1 b * t 0) := by
  have h := congrFun (congrFun (kruppa_gram U V R s t f1 f2 hU hR hE) a) b
  have hH : ∀ (c k : Fin 3), (Matrix.diagonal s * V.transpose * Matrix.diagonal ![f1, f1, 1]) c k
      = s c * V k c * ![f1, f1, 1] k := by
    intro c k
    rw [Matrix.mul_diagonal, Matrix.diagonal_mul, Matrix.transpose_apply]
  have hY : ∀ (c k : Fin 3), (U.transpose * Matrix.diagonal ![1, 1, f2] * skew t) c k
      = U 0 c * 1 * skew t 0 k + U 1 c * 1 * skew t 1 k + U 2 c * f2 * skew t 2 k := by
    intro c k
    rw [Matrix.mul_apply, Fin.sum_univ_three]
    simp only [Matrix.mul_diagonal, Matrix.transpose_apply]
    rfl
  rw [Matrix.smul_apply, Matrix.mul_apply, Matrix.mul_apply, Fin.sum_univ_three,
    Fin.sum_univ_three] at h
  simp only [Matrix.transpose_apply, hH, hY, smul_eq_mul] at h
  simp [skew] at h
  linear_combination h

/-- The Kruppa proportionality: when `diag(f2,f2,1) (U diag(s) Vᵀ) diag(f1,f1,1)` is a
skew-symmetric matrix times an orthogonal one, `U` is orthogonal and `s 2 = 0`, the three
quantities `f1² ai(k) + bi(k)` are proportional to the three quantities
`f2² aj(k) + bj(k)`. -/
theorem kruppa_proportional {T : Type} [LinearOrderedField T] (U V R : Matrix3 T)
    (s t : Vector3 T) (f1 f2 : T)
    (hU : U.transpose * U = 1) (hR : R.transpose * R = 1) (hs : s 2 = 0) (hf2 : f2 ≠ 0)
    (hE : Matrix.diagonal ![f2, f2, 1] * (U * Matrix.diagonal s * V.transpose)
        * Matrix.diagonal ![f1, f1, 1] = skew t * R) :
    ∃ α β : T, α ≠ 0 ∧
      α * (s 0 * s 0 * (f1 * f1 * (V 0 0 * V 0 0 + V 1 0 * V 1 0) + V 2 0 * V 2 0))
        = β * (f2 * f2 * (U 0 1 * U 0 1 + U 1 1 * U 1 1) + U 2 1 * U 2 1) ∧
      α * (s 0 * s 1 * (f1 * f1 * (V 0 0 * V 0 1 + V 1 0 * V 1 1) + V 2 0 * V 2 1))
        = β * (f2 * f2 * -(U 0 0 * U 0 1 + U 1 0 * U 1 1) + -(U 2 0 * U 2 1)) ∧
      α * (s 1 * s 1 * (f1 * f1 * (V 0 1 * V 0 1 + V 1 1 * V 1 1) + V 2 1 * V 2 1))
        = β * (f2 * f2 * (U 0 0 * U 0 0 + U 1 0 * U 1 0) + U 2 0 * U 2 0) := by
  obtain ⟨hδ, ⟨ca0, ca1, ca2⟩, ⟨cb0, cb1, cb2⟩⟩ := orthogonal_cofactor U hU
  have e00 := kruppa_entries U V R s t f1 f2 hU hR hE 0 0
  have e01 := kruppa_entries U V R s t f1 f2 hU hR hE 0 1
  have e11 := kruppa_entries U V R s t f1 f2 hU hR hE 1 1
  have e22 := kruppa_entries U V R s t f1 f2 hU hR hE 2 2
  rw [hs] at e22
  have hsq : (U 1 2 * t 2 - f2 * U 2 2 * t 1) * (U 1 2 * t 2 - f2 * U 2 2 * t 1)
      + (f2 * U 2 2 * t 0 - U 0 2 * t 2) * (f2 * U 2 2 * t 0 - U 0 2 * t 2)
      + (U 0 2 * t 1 - U 1 2 * t 0) * (U 0 2 * t 1 - U 1 2 * t 0) = 0 := by
    linear_combination -e22
  obtain ⟨y0, y1, y2⟩ := sum_three_squares_eq_zero _ _ _ hsq
  obtain ⟨p0, p1, p2⟩ := cross_parallel (t 0) (t 1) (t 2) (U 0 2) (U 1 2) (f2 * U 2 2)
    (by linear_combination -y0) (by linear_combination -y1) (by linear_combination -y2)
  have col2 : U 0 2 * U 0 2 + U 1 2 * U 1 2 + U 2 2 * U 2 2 = 1 := by
    have := congrFun (congrFun hU 2) 2
    rw [Matrix.mul_apply, Fin.sum_univ_three] at this
    simpa [Matrix.transpose_apply] using this
  have hn : U 0 2 * U 0 2 + U 1 2 * U 1 2 + f2 * U 2 2 * (f2 * U 2 2) ≠ 0 := by
    intro h0
    obtain ⟨z0, z1, z2⟩ := sum_three_squares_eq_zero _ _ _ h0
    have z2' : U 2 2 = 0 := by
      rcases mul_eq_zero.mp z2 with h | h
      · exact absurd h hf2
      · exact h
    rw [z0, z1, z2'] at col2
    norm_num at col2
  set n : T := U 0 2 * U 0 2 + U 1 2 * U 1 2 + f2 * U 2 2 * (f2 * U 2 2) with hn_def
  set τ : T := t 0 * U 0 2 + t 1 * U 1 2 + t 2 * (f2 * U 2 2) with hτ_def
  -- the rows of `Uᵀ diag(1,1,f2) [t]ₓ`, scaled by `n`
  have a0 : n * (U 1 0 * t 2 - f2 * U 2 0 * t 1) = -(τ * U.det * (f2 * U 0 1)) := by
    linear_combination U 1 0 * p2 - f2 * U 2 0 * p1 - τ * f2 * ca0
  have a1 : n * (f2 * U 2 0 * t 0 - U 0 0 * t 2) = -(τ * U.det * (f2 * U 1 1)) := by
    linear_combination f2 * U 2 0 * p0 - U 0 0 * p2 - τ * f2 * ca1
  have a2 : n * (U 0 0 * t 1 - U 1 0 * t 0) = -(τ * U.det * U 2 1) := by
    linear_combination U 0 0 * p1 - U 1 0 * p0 - τ * ca2
  have b0 : n * (U 1 1 * t 2 - f2 * U 2 1 * t 1) = τ * U.det * (f2 * U 0 0) := by
    linear_combination U 1 1 * p2 - f2 * U 2 1 * p1 - τ * f2 * cb0
  have b1 : n * (f2 * U 2 1 * t 0 - U 0 1 * t 2) = τ * U.det * (f2 * U 1 0) := by
    linear_combination f2 * U 2 1 * p0 - U 0 1 * p2 - τ * f2 * cb1
  have b2 : n * (U 0 1 * t 1 - U 1 1 * t 0) = τ * U.det * U 2 0 := by
    linear_combination U 0 1 * p1 - U 1 1 * p0 - τ * cb2
  refine ⟨n * n * (f2 * f2), τ * τ, mul_ne_zero (mul_ne_zero hn hn) (mul_ne_zero hf2 hf2),
    ?_, ?_, ?_⟩
  · linear_combination n * n * e00
      + (n * (U 1 0 * t 2 - f2 * U 2 0 * t 1) + -(τ * U.det * (f2 * U 0 1))) * a0
      + (n * (f2 * U 2 0 * t 0 - U 0 0 * t 2) + -(τ * U.det * (f2 * U 1 1))) * a1
      + (n * (U 0 0 * t 1 - U 1 0 * t 0) + -(τ * U.det * U 2 1)) * a2
      + τ * τ * (f2 * f2 * (U 0 1 * U 0 1 + U 1 1 * U 1 1) + U 2 1 * U 2 1) * hδ
  · linear_combination n * n * e01
      + (n * (U 1 1 * t 2 - f2 * U 2 1 * t 1)) * a0
      + (-(τ * U.det * (f2 * U 0 1))) * b0
      + (n * (f2 * U 2 1 * t 0 - U 0 1 * t 2)) * a1
      + (-(τ * U.det * (f2 * U 1 1))) * b1
      + (n * (U 0 1 * t 1 - U 1 1 * t 0)) * a2
      + (-(τ * U.det * U 2 1)) * b2
      - τ * τ * (f2 * f2 * (U 0 0 * U 0 1 + U 1 0 * U 1 1) + U 2 0 * U 2 1) * hδ
  · linear_combination n * n * e11
      + (n * (U 1 1 * t 2 - f2 * U 2 1 * t 1) + τ * U.det * (f2 * U 0 0)) * b0
      + (n * (f2 * U 2 1 * t 0 - U 0 1 * t 2) + τ * U.det * (f2 * U 1 0)) * b1
      + (n * (U 0 1 * t 1 - U 1 1 * t 0) + τ * U.det * U 2 0) * b2
      + τ * τ * (f2 * f2 * (U 0 0 * U 0 0 + U 1 0 * U 1 0) + U 2 0 * U 2 0) * hδ

theorem intrinsics_eq {T : Type} [Field T] (f : T) (pp : Vector2 T) :
    intrinsics f pp
      = setCoeff (setCoeff 1 0 2 (pp 0)) 1 2 (pp 1) * Matrix.diagonal ![f, f, 1] := by
  ext i j
  rw [Matrix.mul_diagonal]
  fin_cases i <;> fin_cases j <;> simp [intrinsics, setCoeff, Matrix.vecHead, Matrix.vecTail]

theorem calibrated_eq {T : Type} [Field T] (F : Matrix3 T) (pp0 pp1 : Vector2 T) (f1 f2 : T) :
    (intrinsics f2 pp1).transpose * F * intrinsics f1 pp0
      = Matrix.diagonal ![f2, f2, 1] * geometryMatrix F pp0 pp1 * Matrix.diagonal ![f1, f1, 1] := by
  rw [intrinsics_eq, intrinsics_eq, Matrix.transpose_mul, Matrix.diagonal_transpose]
  simp only [geometryMatrix, Matrix.mul_assoc]

theorem det_skew {T : Type} [Field T] (t : Vector3 T) : (skew t).det = 0 := by
  rw [Matrix.det_fin_three]
  simp [skew]
  ring

theorem third_singular_value_zero {T : Type} [LinearOrderedField T] (r : JacobiSVD T)
    (G : Matrix3 T) (f1 f2 : T) (hsvd : r.IsDecompositionOf G) (hf1 : f1 ≠ 0) (hf2 : f2 ≠ 0)
    (hE : IsEssential (Matrix.diagonal ![f2, f2, 1] * G * Matrix.diagonal ![f1, f1, 1])) :
    r.singularValues 2 = 0 := by
  obtain ⟨t, R, _, _, hfac⟩ := hE
  have hdet := congrArg Matrix.det hfac
  rw [Matrix.det_mul, Matrix.det_mul, Matrix.det_mul, det_skew, zero_mul,
    Matrix.det_diagonal, Matrix.det_diagonal, Fin.prod_univ_three, Fin.prod_univ_three] at hdet
  simp only [Matrix.cons_val_zero, Matrix.cons_val_one, Matrix.head_cons,
    Matrix.cons_val_two, Matrix.tail_cons, mul_one] at hdet
  have hG : G.det = 0 := by
    rcases mul_eq_zero.mp hdet with h | h
    · rcases mul_eq_zero.mp h with h' | h'
      · exact absurd h' (mul_ne_zero hf2 hf2)
      · exact h'
    · exact absurd h (mul_ne_zero hf1 hf1)
  have hU : r.matrixU.det * r.matrixU.det = 1 := by
    have := congrArg Matrix.det hsvd.orthogonalU
    rwa [Matrix.det_mul, Matrix.det_transpose, Matrix.det_one] at this
  have hV : r.matrixV.det * r.matrixV.det = 1 := by
    have := congrArg Matrix.det hsvd.orthogonalV
    rwa [Matrix.det_mul, Matrix.det_transpose, Matrix.det_one] at this
  have hU0 : r.matrixU.det ≠ 0 := by
    intro h
    rw [h] at hU
    norm_num at hU
  have hV0 : r.matrixV.det ≠ 0 := by
    intro h
    rw [h] at hV
    norm_num at hV
  have hprod : r.singularValues 0 * r.singularValues 1 * r.singularValues 2 = 0 := by
    have h := hG
    rw [hsvd.factors, Matrix.det_mul, Matrix.det_mul, Matrix.det_transpose,
      Matrix.det_diagonal, Fin.prod_univ_three] at h
    rcases mul_eq_zero.mp h with h' | h'
    · rcases mul_eq_zero.mp h' with h'' | h''
      · exact absurd h'' hU0
      · exact h''
    · exact absurd h' hV0
  by_contra hne
  have h2 : 0 < r.singularValues 2 := lt_of_le_of_ne hsvd.nonneg (Ne.symm hne)
  have h1 : 0 < r.singularValues 1 := lt_of_lt_of_le h2 hsvd.sorted12
  have h0 : 0 < r.singularValues 0 := lt_of_lt_of_le h1 hsvd.sorted01
  exact absurd hprod (ne_of_gt (mul_pos (mul_pos h0 h1) h2))

/-- The bilinear relations in the squared focal lengths: each coefficient vector returned
by `fetzer_ds` for a matrix `G` with `diag(f2,f2,1) G diag(f1,f1,1)` essential satisfies
`f1² f2² d(0) + f1² d(1) + f2² d(2) + d(3) = 0`. -/
theorem fetzer_ds_relation {T : Type} [LinearOrderedField T] (svd : Matrix3 T → JacobiSVD T)
    (G : Matrix3 T) (f1 f2 : T) (hsvd : (svd G).IsDecompositionOf G)
    (hf1 : f1 ≠ 0) (hf2 : f2 ≠ 0)
    (hE : IsEssential (Matrix.diagonal ![f2, f2, 1] * G * Matrix.diagonal ![f1, f1, 1]))
    (i : Fin 3) :
    f1 * f1 * (f2 * f2) * fetzer_ds svd G i 0 + f1 * f1 * fetzer_ds svd G i 1
      + f2 * f2 * fetzer_ds svd G i 2 + fetzer_ds svd G i 3 = 0 := by
  have hs := third_singular_value_zero (svd G) G f1 f2 hsvd hf1 hf2 hE
  obtain ⟨t, R, hR, _, hfac⟩ := hE
  have hfac' : Matrix.diagonal ![f2, f2, 1]
      * ((svd G).matrixU * Matrix.diagonal (svd G).singularValues * (svd G).matrixV.transpose)
      * Matrix.diagonal ![f1, f1, 1] = skew t * R := by
    rw [← hsvd.factors]
    exact hfac
  obtain ⟨α, β, hα, k0, k1, k2⟩ := kruppa_proportional (svd G).matrixU (svd G).matrixV R
    (svd G).singularValues t f1 f2 hsvd.orthogonalU hR hs hf2 hfac'
  have key : ∀ x : T, α * x = 0 → x = 0 := fun x hx =>
    (mul_eq_zero.mp hx).resolve_left hα
  fin_cases i
  · simp [fetzer_ds, fetzer_d]
    apply key
    linear_combination
      ((f2 * f2 * ((svd G).matrixU 0 1 * (svd G).matrixU 0 1 + (svd G).matrixU 1 1 * (svd G).matrixU 1 1)
        + (svd G).matrixU 2 1 * (svd G).matrixU 2 1)) * k1
      - ((f2 * f2 * -((svd G).matrixU 0 0 * (svd G).matrixU 0 1 + (svd G).matrixU 1 0 * (svd G).matrixU 1 1)
        + -((svd G).matrixU 2 0 * (svd G).matrixU 2 1))) * k0
  · simp [fetzer_ds, fetzer_d]
    apply key
    linear_combination
      ((f2 * f2 * ((svd G).matrixU 0 0 * (svd G).matrixU 0 0 + (svd G).matrixU 1 0 * (svd G).matrixU 1 0)
        + (svd G).matrixU 2 0 * (svd G).matrixU 2 0)) * k0
      - ((f2 * f2 * ((svd G).matrixU 0 1 * (svd G).matrixU 0 1 + (svd G).matrixU 1 1 * (svd G).matrixU 1 1)
        + (svd G).matrixU 2 1 * (svd G).matrixU 2 1)) * k2
  · simp [fetzer_ds, fetzer_d]
    apply key
    linear_combination
      ((f2 * f2 * -((svd G).matrixU 0 0 * (svd G).matrixU 0 1 + (svd G).matrixU 1 0 * (svd G).matrixU 1 1)
        + -((svd G).matrixU 2 0 * (svd G).matrixU 2 1))) * k2
      - ((f2 * f2 * ((svd G).matrixU 0 0 * (svd G).matrixU 0 0 + (svd G).matrixU 1 0 * (svd G).matrixU 1 0)
        + (svd G).matrixU 2 0 * (svd G).matrixU 2 0)) * k1

/-! ## Fetzer cost functors at the true focal lengths -/

theorem quotient_residual_zero {T : Type} [Field T] (x N D : T) (hD : D ≠ 0)
    (h : x * D + N = 0) : (x - -N / D) / x = 0 := by
  have hK : -N / D = x := by
    rw [div_eq_iff hD]
    linear_combination -h
  rw [hK, sub_self, zero_div]

theorem fetzer_new_eq {T : Type} [Field T] (svd : Matrix3 T → JacobiSVD T) (F : Matrix3 T)
    (pp0 pp1 : Vector2 T) :
    FetzerFocalLengthCost.new svd F pp0 pp1
      = { d_01 := fetzer_ds svd (geometryMatrix F pp0 pp1) 0
          d_02 := fetzer_ds svd (geometryMatrix F pp0 pp1) 1
          d_12 := fetzer_ds svd (geometryMatrix F pp0 pp1) 2 } := rfl

theorem sameCamera_new_eq {T : Type} [Field T] (svd : Matrix3 T → JacobiSVD T)
    (F : Matrix3 T) (pp : Vector2 T) :
    FetzerFocalLengthSameCameraCost.new svd F pp
      = { d_01 := fetzer_ds svd (geometryMatrix F pp pp) 0
          d_02 := fetzer_ds svd (geometryMatrix F pp pp) 1
          d_12 := fetzer_ds svd (geometryMatrix F pp pp) 2 } := rfl

/-- C6: when `K1ᵀ F K0` is an essential matrix for the intrinsics with focal lengths
`f1`, `f2` and the given principal points, the decomposition routine returns a singular
value decomposition, the focal lengths are non-zero and the two denominators are non-zero,
the two-camera functor evaluated at `(f1, f2)` has residual `(0, 0)`; with one shared
camera the same-camera functor evaluated at the shared focal length has residual `(0, 0)`. -/
theorem fetzer_residual_zero_at_truth {T : Type} [LinearOrderedField T]
    (svd : Matrix3 T → JacobiSVD T) (F : Matrix3 T) (pp0 pp1 : Vector2 T) (f1 f2 : T)
    (hsvd : (svd (geometryMatrix F pp0 pp1)).IsDecompositionOf (geometryMatrix F pp0 pp1))
    (hE : IsEssential ((intrinsics f2 pp1).transpose * F * intrinsics f1 pp0))
    (hf1 : f1 ≠ 0) (hf2 : f2 ≠ 0)
    (hden0 : f2 * f2 * (FetzerFocalLengthCost.new svd F pp0 pp1).d_01 0
      + (FetzerFocalLengthCost.new svd F pp0 pp1).d_01 1 ≠ 0)
    (hden1 : f1 * f1 * (FetzerFocalLengthCost.new svd F pp0 pp1).d_12 0
      + (FetzerFocalLengthCost.new svd F pp0 pp1).d_12 2 ≠ 0) :
    ((FetzerFocalLengthCost.new svd F pp0 pp1).operator f1 f2).2 = ![0, 0] ∧
    (pp1 = pp0 → f2 = f1 →
      ((FetzerFocalLengthSameCameraCost.new svd F pp0).operator f1).2 = ![0, 0]) := by
  rw [calibrated_eq] at hE
  have r0 := fetzer_ds_relation svd (geometryMatrix F pp0 pp1) f1 f2 hsvd hf1 hf2 hE 0
  have r2 := fetzer_ds_relation svd (geometryMatrix F pp0 pp1) f1 f2 hsvd hf1 hf2 hE 2
  rw [fetzer_new_eq] at hden0 hden1
  simp only at hden0 hden1
  have z0 := quotient_residual_zero (f1 * f1)
    (f2 * f2 * fetzer_ds svd (geometryMatrix F pp0 pp1) 0 2
      + fetzer_ds svd (geometryMatrix F pp0 pp1) 0 3)
    (f2 * f2 * fetzer_ds svd (geometryMatrix F pp0 pp1) 0 0
      + fetzer_ds svd (geometryMatrix F pp0 pp1) 0 1) hden0 (by linear_combination r0)
  have z1 := quotient_residual_zero (f2 * f2)
    (f1 * f1 * fetzer_ds svd (geometryMatrix F pp0 pp1) 2 1
      + fetzer_ds svd (geometryMatrix F pp0 pp1) 2 3)
    (f1 * f1 * fetzer_ds svd (geometryMatrix F pp0 pp1) 2 0
      + fetzer_ds svd (geometryMatrix F pp0 pp1) 2 2) hden1 (by linear_combination r2)
  have main : ((FetzerFocalLengthCost.new svd F pp0 pp1).operator f1 f2).2 = ![0, 0] := by
    rw [fetzer_new_eq]
    funext k
    fin_cases k
    · exact z0
    · exact z1
  refine ⟨main, ?_⟩
  intro hpp hf
  subst hpp
  subst hf
  exact main

theorem matrix3_ext {T : Type} {A B : Matrix3 T}
    (h00 : A 0 0 = B 0 0) (h01 : A 0 1 = B 0 1) (h02 : A 0 2 = B 0 2)
    (h10 : A 1 0 = B 1 0) (h11 : A 1 1 = B 1 1) (h12 : A 1 2 = B 1 2)
    (h20 : A 2 0 = B 2 0) (h21 : A 2 1 = B 2 1) (h22 : A 2 2 = B 2 2) : A = B := by
  ext i j
  fin_cases i <;> fin_cases j <;> assumption

theorem diagonal_fin_three {T : Type} [Field T] (a b c : T) :
    (Matrix.diagonal ![a, b, c] : Matrix3 T) = !![a, 0, 0; 0, b, 0; 0, 0, c] := by
  apply matrix3_ext <;>
    simp [Matrix.diagonal_apply, Matrix.vecHead, Matrix.vecTail]

theorem setCoeff_identity {T : Type} [Field T] (a b : T) :
    setCoeff (setCoeff (1 : Matrix3 T) 0 2 a) 1 2 b = !![1, 0, a; 0, 1, b; 0, 0, 1] := by
  apply matrix3_ext <;>
    simp [setCoeff, Matrix.vecHead, Matrix.vecTail]

theorem sample_geometryMatrix : geometryMatrix sampleF samplePP samplePP = sampleG := by
  simp only [geometryMatrix, setCoeff_identity]
  apply matrix3_ext <;>
    simp only [sampleF, samplePP, sampleG, Matrix.one_fin_three, diagonal_fin_three, Matrix.mul_apply,
      Fin.sum_univ_three, Matrix.transpose_apply, Matrix.of_apply, Matrix.cons_val',
      Matrix.cons_val_zero, Matrix.cons_val_one, Matrix.head_cons, Matrix.cons_val_two,
      Matrix.tail_cons, Matrix.empty_val', Matrix.cons_val_fin_one] <;>
    norm_num

theorem sample_isDecomposition : (sampleSvd sampleG).IsDecompositionOf sampleG where
  orthogonalU := by
    apply matrix3_ext <;>
      simp only [sampleSvd, sampleU, Matrix.one_fin_three, diagonal_fin_three, Matrix.mul_apply,
      Fin.sum_univ_three, Matrix.transpose_apply, Matrix.of_apply, Matrix.cons_val',
      Matrix.cons_val_zero, Matrix.cons_val_one, Matrix.head_cons, Matrix.cons_val_two,
      Matrix.tail_cons, Matrix.empty_val', Matrix.cons_val_fin_one] <;>
      norm_num
  orthogonalV := by
    apply matrix3_ext <;>
      simp only [sampleSvd, sampleV, Matrix.one_fin_three, diagonal_fin_three, Matrix.mul_apply,
      Fin.sum_univ_three, Matrix.transpose_apply, Matrix.of_apply, Matrix.cons_val',
      Matrix.cons_val_zero, Matrix.cons_val_one, Matrix.head_cons, Matrix.cons_val_two,
      Matrix.tail_cons, Matrix.empty_val', Matrix.cons_val_fin_one] <;>
      norm_num
  sorted01 := by norm_num [sampleSvd]
  sorted12 := by norm_num [sampleSvd]
  nonneg := by norm_num [sampleSvd]
  factors := by
    apply matrix3_ext <;>
      simp only [sampleSvd, sampleU, sampleV, sampleG, Matrix.one_fin_three, diagonal_fin_three, Matrix.mul_apply,
      Fin.sum_univ_three, Matrix.transpose_apply, Matrix.of_apply, Matrix.cons_val',
      Matrix.cons_val_zero, Matrix.cons_val_one, Matrix.head_cons, Matrix.cons_val_two,
      Matrix.tail_cons, Matrix.empty_val', Matrix.cons_val_fin_one] <;>
      norm_num

theorem sample_isEssential :
    IsEssential ((intrinsics 8 samplePP).transpose * sampleF * intrinsics 8 samplePP) := by
  refine ⟨sampleT, sampleR, ?_, ?_, ?_⟩
  · apply matrix3_ext <;>
      simp only [sampleR, Matrix.one_fin_three, diagonal_fin_three, Matrix.mul_apply,
      Fin.sum_univ_three, Matrix.transpose_apply, Matrix.of_apply, Matrix.cons_val',
      Matrix.cons_val_zero, Matrix.cons_val_one, Matrix.head_cons, Matrix.cons_val_two,
      Matrix.tail_cons, Matrix.empty_val', Matrix.cons_val_fin_one] <;>
      norm_num
  · rw [Matrix.det_fin_three]
    simp only [sampleR, Matrix.one_fin_three, diagonal_fin_three, Matrix.mul_apply,
      Fin.sum_univ_three, Matrix.transpose_apply, Matrix.of_apply, Matrix.cons_val',
      Matrix.cons_val_zero, Matrix.cons_val_one, Matrix.head_cons, Matrix.cons_val_two,
      Matrix.tail_cons, Matrix.empty_val', Matrix.cons_val_fin_one]
    norm_num
  · apply matrix3_ext <;>
      simp only [intrinsics, samplePP, sampleF, sampleT, sampleR, skew, Matrix.one_fin_three, diagonal_fin_three, Matrix.mul_apply,
      Fin.sum_univ_three, Matrix.transpose_apply, Matrix.of_apply, Matrix.cons_val',
      Matrix.cons_val_zero, Matrix.cons_val_one, Matrix.head_cons, Matrix.cons_val_two,
      Matrix.tail_cons, Matrix.empty_val', Matrix.cons_val_fin_one] <;>
      norm_num

theorem sample_coefficients :
    (FetzerFocalLengthCost.new sampleSvd sampleF samplePP samplePP).d_01
        = ![-640 / 3087, -4400 / 3087, 46000 / 3087, -40960 / 3087] ∧
    (FetzerFocalLengthCost.new sampleSvd sampleF samplePP samplePP).d_12
        = ![-640 / 27783, 46000 / 27783, -4400 / 27783, -40960 / 27783] := by
  constructor
  · funext k
    fin_cases k <;>
      simp only [FetzerFocalLengthCost.new, fetzer_ds, fetzer_d, sampleSvd, sampleU, sampleV,
        Matrix.one_fin_three, diagonal_fin_three, Matrix.mul_apply,
      Fin.sum_univ_three, Matrix.transpose_apply, Matrix.of_apply, Matrix.cons_val',
      Matrix.cons_val_zero, Matrix.cons_val_one, Matrix.head_cons, Matrix.cons_val_two,
      Matrix.tail_cons, Matrix.empty_val', Matrix.cons_val_fin_one] <;>
      norm_num
  · funext k
    fin_cases k <;>
      simp only [FetzerFocalLengthCost.new, fetzer_ds, fetzer_d, sampleSvd, sampleU, sampleV,
        Matrix.one_fin_three, diagonal_fin_three, Matrix.mul_apply,
      Fin.sum_univ_three, Matrix.transpose_apply, Matrix.of_apply, Matrix.cons_val',
      Matrix.cons_val_zero, Matrix.cons_val_one, Matrix.head_cons, Matrix.cons_val_two,
      Matrix.tail_cons, Matrix.empty_val', Matrix.cons_val_fin_one] <;>
      norm_num

theorem sample_sameCamera_coefficients :
    (FetzerFocalLengthSameCameraCost.new sampleSvd sampleF samplePP).d_01
        = ![-640 / 3087, -4400 / 3087, 46000 / 3087, -40960 / 3087] ∧
    (FetzerFocalLengthSameCameraCost.new sampleSvd sampleF samplePP).d_12
        = ![-640 / 27783, 46000 / 27783, -4400 / 27783, -40960 / 27783] :=
  sample_coefficients

theorem sample_sameCamera_residual (f : ℚ) :
    ((FetzerFocalLengthSameCameraCost.new sampleSvd sampleF samplePP).operator f).2
      = ![(f * f - -(f * f * (46000 / 3087) + -40960 / 3087)
              / (f * f * (-640 / 3087) + -4400 / 3087)) / (f * f),
          (f * f - -(f * f * (46000 / 27783) + -40960 / 27783)
              / (f * f * (-640 / 27783) + -4400 / 27783)) / (f * f)] := by
  simp only [FetzerFocalLengthSameCameraCost.operator, sample_sameCamera_coefficients.1,
    sample_sameCamera_coefficients.2, Matrix.cons_val_zero, Matrix.cons_val_one,
    Matrix.head_cons, Matrix.cons_val_two, Matrix.tail_cons, Matrix.cons_val_three]

/-- C6, at a concrete input: the sample geometry with principal point `(1, 2)` and focal
length `8` in both images. -/
theorem fetzer_residual_zero_at_truth_witness :
    (sampleSvd (geometryMatrix sampleF samplePP samplePP)).IsDecompositionOf
      (geometryMatrix sampleF samplePP samplePP) ∧
    IsEssential ((intrinsics 8 samplePP).transpose * sampleF * intrinsics 8 samplePP) ∧
    ((FetzerFocalLengthCost.new sampleSvd sampleF samplePP samplePP).operator 8 8).2
      = ![0, 0] ∧
    ((FetzerFocalLengthSameCameraCost.new sampleSvd sampleF samplePP).operator 8).2
      = ![0, 0] :=
  have hsvd : (sampleSvd (geometryMatrix sampleF samplePP samplePP)).IsDecompositionOf
      (geometryMatrix sampleF samplePP samplePP) := by
    rw [sample_geometryMatrix]
    exact sample_isDecomposition
  have h := fetzer_residual_zero_at_truth sampleSvd sampleF samplePP samplePP 8 8 hsvd
    sample_isEssential (by norm_num) (by norm_num)
    (by rw [sample_coefficients.1]; norm_num)
    (by rw [sample_coefficients.2]; norm_num)
  ⟨hsvd, sample_isEssential, h.1, h.2 rfl rfl⟩

/-! ## The same-camera functor away from the true focal length -/

theorem quotient_residual_eq_zero_iff {T : Type} [Field T] (x N D : T) (hx : x ≠ 0)
    (hD : D ≠ 0) : (x - -N / D) / x = 0 ↔ x * D + N = 0 := by
  rw [div_eq_zero_iff]
  constructor
  · intro h
    rcases h with h | h
    · have hK : -N / D = x := (sub_eq_zero.mp h).symm
      rw [div_eq_iff hD] at hK
      linear_combination -hK
    · exact absurd h hx
  · intro h
    left
    have hK : -N / D = x := by
      rw [div_eq_iff hD]
      linear_combination -h
    rw [hK, sub_self]

/-- C7, as stated, fails: the sample geometry is consistent with the shared focal length
`8`, yet at the perturbation `δ = -7` the residual is `(0, 0)` again, and the residual at
the smaller perturbation `δ = 1` is not smaller than the one at `δ = -7`. -/
theorem sameCamera_perturbation_counterexample :
    (sampleSvd (geometryMatrix sampleF samplePP samplePP)).IsDecompositionOf
      (geometryMatrix sampleF samplePP samplePP) ∧
    IsEssential ((intrinsics 8 samplePP).transpose * sampleF * intrinsics 8 samplePP) ∧
    (-7 : ℚ) ≠ 0 ∧
    ((FetzerFocalLengthSameCameraCost.new sampleSvd sampleF samplePP).operator
      (8 + -7)).2 = ![0, 0] ∧
    |(1 : ℚ)| < |(-7 : ℚ)| ∧
    ¬ (squaredNorm2
        ((FetzerFocalLengthSameCameraCost.new sampleSvd sampleF samplePP).operator (8 + 1)).2
      < squaredNorm2
        ((FetzerFocalLengthSameCameraCost.new sampleSvd sampleF samplePP).operator
          (8 + -7)).2) := by
  have hsvd : (sampleSvd (geometryMatrix sampleF samplePP samplePP)).IsDecompositionOf
      (geometryMatrix sampleF samplePP samplePP) := by
    rw [sample_geometryMatrix]
    exact sample_isDecomposition
  refine ⟨hsvd, sample_isEssential, by norm_num, ?_, by norm_num, ?_⟩
  · rw [sample_sameCamera_residual]
    norm_num
  · rw [sample_sameCamera_residual, sample_sameCamera_residual]
    norm_num [squaredNorm2]

/-- C7, amended: for a same-camera functor built from a geometry consistent with the shared
focal length `f`, the residual at `f + δ` equals the residual at `-(f + δ)`, and, where
`f + δ` and the two denominators are non-zero, component `0` vanishes exactly when
`(f + δ)² = f²` or `d_01(0) ((f + δ)² + f²) + d_01(1) + d_01(2) = 0`, and component `1`
exactly when `(f + δ)² = f²` or `d_12(0) ((f + δ)² + f²) + d_12(1) + d_12(2) = 0`. -/
theorem sameCamera_residual_zero_iff {T : Type} [LinearOrderedField T]
    (svd : Matrix3 T → JacobiSVD T) (F : Matrix3 T) (pp : Vector2 T) (f δ : T)
    (hsvd : (svd (geometryMatrix F pp pp)).IsDecompositionOf (geometryMatrix F pp pp))
    (hE : IsEssential ((intrinsics f pp).transpose * F * intrinsics f pp))
    (hf : f ≠ 0) (hfδ : f + δ ≠ 0)
    (hden0 : (f + δ) * (f + δ) * (FetzerFocalLengthSameCameraCost.new svd F pp).d_01 0
      + (FetzerFocalLengthSameCameraCost.new svd F pp).d_01 1 ≠ 0)
    (hden1 : (f + δ) * (f + δ) * (FetzerFocalLengthSameCameraCost.new svd F pp).d_12 0
      + (FetzerFocalLengthSameCameraCost.new svd F pp).d_12 2 ≠ 0) :
    ((FetzerFocalLengthSameCameraCost.new svd F pp).operator (-(f + δ))).2
      = ((FetzerFocalLengthSameCameraCost.new svd F pp).operator (f + δ)).2 ∧
    (((FetzerFocalLengthSameCameraCost.new svd F pp).operator (f + δ)).2 0 = 0 ↔
      ((f + δ) ^ 2 = f ^ 2 ∨
        (FetzerFocalLengthSameCameraCost.new svd F pp).d_01 0 * ((f + δ) ^ 2 + f ^ 2)
          + (FetzerFocalLengthSameCameraCost.new svd F pp).d_01 1
          + (FetzerFocalLengthSameCameraCost.new svd F pp).d_01 2 = 0)) ∧
    (((FetzerFocalLengthSameCameraCost.new svd F pp).operator (f + δ)).2 1 = 0 ↔
      ((f + δ) ^ 2 = f ^ 2 ∨
        (FetzerFocalLengthSameCameraCost.new svd F pp).d_12 0 * ((f + δ) ^ 2 + f ^ 2)
          + (FetzerFocalLengthSameCameraCost.new svd F pp).d_12 1
          + (FetzerFocalLengthSameCameraCost.new svd F pp).d_12 2 = 0)) := by
  rw [calibrated_eq] at hE
  have r0 := fetzer_ds_relation svd (geometryMatrix F pp pp) f f hsvd hf hf hE 0
  have r2 := fetzer_ds_relation svd (geometryMatrix F pp pp) f f hsvd hf hf hE 2
  have hx : (f + δ) * (f + δ) ≠ 0 := mul_ne_zero hfδ hfδ
  rw [sameCamera_new_eq] at hden0 hden1 ⊢
  simp only at hden0 hden1
  refine ⟨?_, ?_, ?_⟩
  · simp only [FetzerFocalLengthSameCameraCost.operator, neg_mul_neg]
  · have key := quotient_residual_eq_zero_iff ((f + δ) * (f + δ))
      ((f + δ) * (f + δ) * fetzer_ds svd (geometryMatrix F pp pp) 0 2
        + fetzer_ds svd (geometryMatrix F pp pp) 0 3)
      ((f + δ) * (f + δ) * fetzer_ds svd (geometryMatrix F pp pp) 0 0
        + fetzer_ds svd (geometryMatrix F pp pp) 0 1) hx hden0
    refine Iff.trans key ?_
    rw [← sub_eq_zero (a := (f + δ) ^ 2), ← mul_eq_zero]
    constructor
    · intro h
      linear_combination h - r0
    · intro h
      linear_combination h + r0
  · have key := quotient_residual_eq_zero_iff ((f + δ) * (f + δ))
      ((f + δ) * (f + δ) * fetzer_ds svd (geometryMatrix F pp pp) 2 1
        + fetzer_ds svd (geometryMatrix F pp pp) 2 3)
      ((f + δ) * (f + δ) * fetzer_ds svd (geometryMatrix F pp pp) 2 0
        + fetzer_ds svd (geometryMatrix F pp pp) 2 2) hx hden1
    refine Iff.trans key ?_
    rw [← sub_eq_zero (a := (f + δ) ^ 2), ← mul_eq_zero]
    constructor
    · intro h
      linear_combination h - r2
    · intro h
      linear_combination h + r2

/-- C7, amended, at a concrete input: the sample geometry, true focal length `8`,
perturbation `δ = 1`. -/
theorem sameCamera_residual_zero_iff_witness :
    ((8 : ℚ) ≠ 0 ∧ (8 : ℚ) + 1 ≠ 0) ∧
    ((FetzerFocalLengthSameCameraCost.new sampleSvd sampleF samplePP).operator (-(8 + 1))).2
      = ((FetzerFocalLengthSameCameraCost.new sampleSvd sampleF samplePP).operator (8 + 1)).2 ∧
    (((FetzerFocalLengthSameCameraCost.new sampleSvd sampleF samplePP).operator (8 + 1)).2 0 = 0
      ↔ (((8 : ℚ) + 1) ^ 2 = 8 ^ 2 ∨
        (FetzerFocalLengthSameCameraCost.new sampleSvd sampleF samplePP).d_01 0
            * (((8 : ℚ) + 1) ^ 2 + 8 ^ 2)
          + (FetzerFocalLengthSameCameraCost.new sampleSvd sampleF samplePP).d_01 1
          + (FetzerFocalLengthSameCameraCost.new sampleSvd sampleF samplePP).d_01 2 = 0)) :=
  have hsvd : (sampleSvd (geometryMatrix sampleF samplePP samplePP)).IsDecompositionOf
      (geometryMatrix sampleF samplePP samplePP) := by
    rw [sample_geometryMatrix]
    exact sample_isDecomposition
  have h := sameCamera_residual_zero_iff sampleSvd sampleF samplePP 8 1 hsvd
    sample_isEssential (by norm_num) (by norm_num)
    (by rw [sample_sameCamera_coefficients.1]; norm_num)
    (by rw [sample_sameCamera_coefficients.2]; norm_num)
  ⟨⟨by norm_num, by norm_num⟩, h.1, h.2.1⟩

/-! ## Rigid3d: statements -/

theorem vector3_eta {T : Type} (p : Vector3 T) : ![p 0, p 1, p 2] = p := by
  funext k
  fin_cases k <;> rfl

theorem transformVector_conj_conj_aux {T : Type} [Field T] (w x y z a b c : T)
    (h : w * w + x * x + y * y + z * z = 1) :
    (Quaterniond.mk w (-x) (-y) (-z)).transformVector
        ((Quaterniond.mk w x y z).transformVector ![a, b, c]) = ![a, b, c] := by
  funext k
  fin_cases k
  · simp [Quaterniond.transformVector, Quaterniond.vec, cross]
    linear_combination
      (4 * (x * x + y * y + z * z) * a - 4 * (x * a + y * b + z * c) * x) * h
  · simp [Quaterniond.transformVector, Quaterniond.vec, cross]
    linear_combination
      (4 * (x * x + y * y + z * z) * b - 4 * (x * a + y * b + z * c) * y) * h
  · simp [Quaterniond.transformVector, Quaterniond.vec, cross]
    linear_combination
      (4 * (x * x + y * y + z * z) * c - 4 * (x * a + y * b + z * c) * z) * h

theorem transformVector_conj_conj {T : Type} [Field T] (w x y z : T) (p : Vector3 T)
    (h : w * w + x * x + y * y + z * z = 1) :
    (Quaterniond.mk w (-x) (-y) (-z)).transformVector
        ((Quaterniond.mk w x y z).transformVector p) = p := by
  have key := transformVector_conj_conj_aux w x y z (p 0) (p 1) (p 2) h
  rw [vector3_eta] at key
  exact key

theorem inverse_of_unit {T : Type} [LinearOrderedField T] (q : Quaterniond T)
    (h : q.squaredNorm = 1) : q.inverse = Quaterniond.mk q.w (-q.x) (-q.y) (-q.z) := by
  simp [Quaterniond.inverse, Quaterniond.conjugate, h]

/-- C8: for a rigid transform whose rotation is a unit quaternion, `Derotate (Rotate x) = x`
and `Rotate (Derotate x) = x`, and neither operation depends on the translation. -/
theorem rigid3d_rotate_derotate {T : Type} [LinearOrderedField T] (q : Quaterniond T)
    (t : Vector3 T) (x : Vector3 T) (hq : q.squaredNorm = 1) :
    (Rigid3d.mk q t).Derotate ((Rigid3d.mk q t).Rotate x) = x ∧
    (Rigid3d.mk q t).Rotate ((Rigid3d.mk q t).Derotate x) = x ∧
    (∀ t' : Vector3 T, (Rigid3d.mk q t').Rotate x = (Rigid3d.mk q t).Rotate x) ∧
    (∀ t' : Vector3 T, (Rigid3d.mk q t').Derotate x = (Rigid3d.mk q t).Derotate x) := by
  have hsq : q.w * q.w + q.x * q.x + q.y * q.y + q.z * q.z = 1 := hq
  have hsq' : q.w * q.w + -q.x * -q.x + -q.y * -q.y + -q.z * -q.z = 1 := by
    linear_combination hsq
  refine ⟨?_, ?_, fun _ => rfl, fun _ => rfl⟩
  · simp only [Rigid3d.Derotate, Rigid3d.Rotate, inverse_of_unit q hq]
    exact transformVector_conj_conj q.w q.x q.y q.z x hsq
  · simp only [Rigid3d.Derotate, Rigid3d.Rotate, inverse_of_unit q hq]
    have key := transformVector_conj_conj q.w (-q.x) (-q.y) (-q.z) x hsq'
    simp only [neg_neg] at key
    exact key

/-- C8, at a concrete input: the unit quaternion `(1/2, 1/2, 1/2, 1/2)`, translation
`(5, 6, 7)` and the point `(1, 2, 3)`. -/
theorem rigid3d_rotate_derotate_witness :
    rigidSample.rotation.squaredNorm = 1 ∧
    rigidSample.Derotate (rigidSample.Rotate ![1, 2, 3]) = ![1, 2, 3] ∧
    rigidSample.Rotate (rigidSample.Derotate ![1, 2, 3]) = ![1, 2, 3] :=
  have h : rigidSample.rotation.squaredNorm = 1 := by
    norm_num [rigidSample, Quaterniond.squaredNorm]
  ⟨h, (rigid3d_rotate_derotate rigidSample.rotation rigidSample.translation ![1, 2, 3] h).1,
    (rigid3d_rotate_derotate rigidSample.rotation rigidSample.translation ![1, 2, 3] h).2.1⟩

/-! ## Track: statements -/

theorem foldl_push_back_observations {T track_t image_t feature_t : Type}
    (obs : List (Observation image_t feature_t)) (tr : Track T track_t image_t feature_t) :
    (obs.foldl Track.push_back tr).observations = tr.observations ++ obs := by
  induction obs generalizing tr with
  | nil => simp
  | cons o rest ih =>
    rw [List.foldl_cons, ih]
    simp [Track.push_back]

/-- C9: a freshly constructed track is not initialized, has zero position, zero color and
no observation; appending any sequence of observations one by one to it yields exactly
that sequence, in append order, so `n` observations give a list of size `n`. -/
theorem track_default_and_append {T track_t image_t feature_t : Type} [Field T]
    (track_id : track_t) (obs : List (Observation image_t feature_t)) :
    (Track.default track_id : Track T track_t image_t feature_t).is_initialized = false ∧
    (Track.default track_id : Track T track_t image_t feature_t).xyz = 0 ∧
    (Track.default track_id : Track T track_t image_t feature_t).color = 0 ∧
    (Track.default track_id : Track T track_t image_t feature_t).observations = [] ∧
    (obs.foldl Track.push_back
      (Track.default track_id : Track T track_t image_t feature_t)).observations = obs ∧
    (obs.foldl Track.push_back
      (Track.default track_id : Track T track_t image_t feature_t)).observations.length
        = obs.length := by
  have h := foldl_push_back_observations obs
    (Track.default track_id : Track T track_t image_t feature_t)
  have h' : (obs.foldl Track.push_back
      (Track.default track_id : Track T track_t image_t feature_t)).observations = obs := by
    rw [h]
    simp [Track.default]
  exact ⟨rfl, rfl, rfl, rfl, h', by rw [h']⟩

/-! ## Fetzer decomposition helper: degenerate input -/

/-- C10: on the all-zero matrix, with leading singular values `s0 = s1 = 0` and whatever
singular vectors the routine returns, `fetzer_ds` returns three zero 4-vectors. -/
theorem fetzer_ds_zero_matrix {T : Type} [Field T] (svd : Matrix3 T → JacobiSVD T)
    (h0 : (svd 0).singularValues 0 = 0) (h1 : (svd 0).singularValues 1 = 0) :
    fetzer_ds svd 0 = ![0, 0, 0] := by
  funext i j
  fin_cases i <;> fin_cases j <;> simp [fetzer_ds, fetzer_d, h0, h1]

/-- C10, at a concrete input: a routine that returns zero singular values and identity
factors. -/
theorem fetzer_ds_zero_matrix_witness :
    (svdOfZero 0).singularValues 0 = 0 ∧ (svdOfZero 0).singularValues 1 = 0 ∧
    fetzer_ds svdOfZero 0 = ![0, 0, 0] :=
  ⟨rfl, rfl, fetzer_ds_zero_matrix svdOfZero rfl rfl⟩

/-! ## Fetzer cost functors: where the residuals vanish -/

/-- C11: with non-zero focal lengths and non-zero denominators, `residual[0]` is zero exactly
when `fi² fj² d_01(0) + fi² d_01(1) + fj² d_01(2) + d_01(3) = 0`, and `residual[1]` exactly
when `fi² fj² d_12(0) + fi² d_12(1) + fj² d_12(2) + d_12(3) = 0`. -/
theorem fetzer_residual_zero_iff_bilinear {T : Type} [Field T] (d_01 d_02 d_12 : Vector4 T)
    (fi fj : T) (hfi : fi ≠ 0) (hfj : fj ≠ 0)
    (hden0 : fj ^ 2 * d_01 0 + d_01 1 ≠ 0) (hden1 : fi ^ 2 * d_12 0 + d_12 2 ≠ 0) :
    (((FetzerFocalLengthCost.mk d_01 d_02 d_12).operator fi fj).2 0 = 0 ↔
      fi ^ 2 * fj ^ 2 * d_01 0 + fi ^ 2 * d_01 1 + fj ^ 2 * d_01 2 + d_01 3 = 0) ∧
    (((FetzerFocalLengthCost.mk d_01 d_02 d_12).operator fi fj).2 1 = 0 ↔
      fi ^ 2 * fj ^ 2 * d_12 0 + fi ^ 2 * d_12 1 + fj ^ 2 * d_12 2 + d_12 3 = 0) := by
  have hD0 : fj * fj * d_01 0 + d_01 1 ≠ 0 := by
    rw [← sq]
    exact hden0
  have hD1 : fi * fi * d_12 0 + d_12 2 ≠ 0 := by
    rw [← sq]
    exact hden1
  have k0 := quotient_residual_eq_zero_iff (fi * fi) (fj * fj * d_01 2 + d_01 3)
    (fj * fj * d_01 0 + d_01 1) (mul_ne_zero hfi hfi) hD0
  have k1 := quotient_residual_eq_zero_iff (fj * fj) (fi * fi * d_12 1 + d_12 3)
    (fi * fi * d_12 0 + d_12 2) (mul_ne_zero hfj hfj) hD1
  constructor
  · refine Iff.trans k0 ?_
    constructor
    · intro h
      linear_combination h
    · intro h
      linear_combination h
  · refine Iff.trans k1 ?_
    constructor
    · intro h
      linear_combination h
    · intro h
      linear_combination h

/-- C11, at a concrete input: `d_01 = (1, 2, 3, 4)`, `d_12 = (1, -2, 3, -4)`, `fi = 1`,
`fj = 2`. -/
theorem fetzer_residual_zero_iff_bilinear_witness :
    ((1 : ℚ) ≠ 0 ∧ (2 : ℚ) ≠ 0) ∧
    ((fetzerSample.operator 1 2).2 0 = 0 ↔
      (1 : ℚ) ^ 2 * 2 ^ 2 * fetzerSample.d_01 0 + 1 ^ 2 * fetzerSample.d_01 1
        + 2 ^ 2 * fetzerSample.d_01 2 + fetzerSample.d_01 3 = 0) ∧
    ((fetzerSample.operator 1 2).2 1 = 0 ↔
      (1 : ℚ) ^ 2 * 2 ^ 2 * fetzerSample.d_12 0 + 1 ^ 2 * fetzerSample.d_12 1
        + 2 ^ 2 * fetzerSample.d_12 2 + fetzerSample.d_12 3 = 0) :=
  ⟨⟨by norm_num, by norm_num⟩,
    fetzer_residual_zero_iff_bilinear ![1, 2, 3, 4] ![0, 0, 0, 0] ![1, -2, 3, -4] 1 2
      (by norm_num) (by norm_num) (by norm_num) (by norm_num)⟩

/-! ## Fetzer decomposition helper: structure of the result -/

theorem withThird_singularValues_zero {T : Type} (r : JacobiSVD T) (x : T)
    (u2 v2 : Vector3 T) : (r.withThird x u2 v2).singularValues 0 = r.singularValues 0 :=
  rfl

theorem withThird_singularValues_one {T : Type} (r : JacobiSVD T) (x : T)
    (u2 v2 : Vector3 T) : (r.withThird x u2 v2).singularValues 1 = r.singularValues 1 :=
  rfl

theorem withThird_matrixU_zero {T : Type} (r : JacobiSVD T) (x : T) (u2 v2 : Vector3 T)
    (i : Fin 3) : (r.withThird x u2 v2).matrixU i 0 = r.matrixU i 0 :=
  rfl

theorem withThird_matrixU_one {T : Type} (r : JacobiSVD T) (x : T) (u2 v2 : Vector3 T)
    (i : Fin 3) : (r.withThird x u2 v2).matrixU i 1 = r.matrixU i 1 :=
  rfl

theorem withThird_matrixV_zero {T : Type} (r : JacobiSVD T) (x : T) (u2 v2 : Vector3 T)
    (i : Fin 3) : (r.withThird x u2 v2).matrixV i 0 = r.matrixV i 0 :=
  rfl

theorem withThird_matrixV_one {T : Type} (r : JacobiSVD T) (x : T) (u2 v2 : Vector3 T)
    (i : Fin 3) : (r.withThird x u2 v2).matrixV i 1 = r.matrixV i 1 :=
  rfl

/-- C12: `fetzer_ds` returns `fetzer_d` at the index pairs `(1,0)`, `(0,2)`, `(2,1)`, in this
order, for the vectors `ai`, `bi` (quadratic in the first two, respectively the third,
coordinates of `v0`, `v1`, weighted by `s0`, `s1`) and `aj`, `bj` (the same from `u0`, `u1`);
`fetzer_d` is the stated antisymmetric combination; and the third singular value and
vectors are never used. -/
theorem fetzer_ds_structure {T : Type} [Field T] (svd : Matrix3 T → JacobiSVD T)
    (G : Matrix3 T) :
    (fetzer_ds svd G
      = ![fetzer_d
            ![(svd G).singularValues 0 ^ 2
                * ((svd G).matrixV 0 0 ^ 2 + (svd G).matrixV 1 0 ^ 2),
              (svd G).singularValues 0 * (svd G).singularValues 1
                * ((svd G).matrixV 0 0 * (svd G).matrixV 0 1
                  + (svd G).matrixV 1 0 * (svd G).matrixV 1 1),
              (svd G).singularValues 1 ^ 2
                * ((svd G).matrixV 0 1 ^ 2 + (svd G).matrixV 1 1 ^ 2)]
            ![(svd G).singularValues 0 ^ 2 * (svd G).matrixV 2 0 ^ 2,
              (svd G).singularValues 0 * (svd G).singularValues 1
                * ((svd G).matrixV 2 0 * (svd G).matrixV 2 1),
              (svd G).singularValues 1 ^ 2 * (svd G).matrixV 2 1 ^ 2]
            ![(svd G).matrixU 0 1 ^ 2 + (svd G).matrixU 1 1 ^ 2,
              -((svd G).matrixU 0 0 * (svd G).matrixU 0 1
                + (svd G).matrixU 1 0 * (svd G).matrixU 1 1),
              (svd G).matrixU 0 0 ^ 2 + (svd G).matrixU 1 0 ^ 2]
            ![(svd G).matrixU 2 1 ^ 2,
              -((svd G).matrixU 2 0 * (svd G).matrixU 2 1),
              (svd G).matrixU 2 0 ^ 2] 1 0,
          fetzer_d
            ![(svd G).singularValues 0 ^ 2
                * ((svd G).matrixV 0 0 ^ 2 + (svd G).matrixV 1 0 ^ 2),
              (svd G).singularValues 0 * (svd G).singularValues 1
                * ((svd G).matrixV 0 0 * (svd G).matrixV 0 1
                  + (svd G).matrixV 1 0 * (svd G).matrixV 1 1),
              (svd G).singularValues 1 ^ 2
                * ((svd G).matrixV 0 1 ^ 2 + (svd G).matrixV 1 1 ^ 2)]
            ![(svd G).singularValues 0 ^ 2 * (svd G).matrixV 2 0 ^ 2,
              (svd G).singularValues 0 * (svd G).singularValues 1
                * ((svd G).matrixV 2 0 * (svd G).matrixV 2 1),
              (svd G).singularValues 1 ^ 2 * (svd G).matrixV 2 1 ^ 2]
            ![(svd G).matrixU 0 1 ^ 2 + (svd G).matrixU 1 1 ^ 2,
              -((svd G).matrixU 0 0 * (svd G).matrixU 0 1
                + (svd G).matrixU 1 0 * (svd G).matrixU 1 1),
              (svd G).matrixU 0 0 ^ 2 + (svd G).matrixU 1 0 ^ 2]
            ![(svd G).matrixU 2 1 ^ 2,
              -((svd G).matrixU 2 0 * (svd G).matrixU 2 1),
              (svd G).matrixU 2 0 ^ 2] 0 2,
          fetzer_d
            ![(svd G).singularValues 0 ^ 2
                * ((svd G).matrixV 0 0 ^ 2 + (svd G).matrixV 1 0 ^ 2),
              (svd G).singularValues 0 * (svd G).singularValues 1
                * ((svd G).matrixV 0 0 * (svd G).matrixV 0 1
                  + (svd G).matrixV 1 0 * (svd G).matrixV 1 1),
              (svd G).singularValues 1 ^ 2
                * ((svd G).matrixV 0 1 ^ 2 + (svd G).matrixV 1 1 ^ 2)]
            ![(svd G).singularValues 0 ^ 2 * (svd G).matrixV 2 0 ^ 2,
              (svd G).singularValues 0 * (svd G).singularValues 1
                * ((svd G).matrixV 2 0 * (svd G).matrixV 2 1),
              (svd G).singularValues 1 ^ 2 * (svd G).matrixV 2 1 ^ 2]
            ![(svd G).matrixU 0 1 ^ 2 + (svd G).matrixU 1 1 ^ 2,
              -((svd G).matrixU 0 0 * (svd G).matrixU 0 1
                + (svd G).matrixU 1 0 * (svd G).matrixU 1 1),
              (svd G).matrixU 0 0 ^ 2 + (svd G).matrixU 1 0 ^ 2]
            ![(svd G).matrixU 2 1 ^ 2,
              -((svd G).matrixU 2 0 * (svd G).matrixU 2 1),
              (svd G).matrixU 2 0 ^ 2] 2 1]) ∧
    (∀ (ai bi aj bj : Vector3 T) (u v : Fin 3),
      fetzer_d ai bi aj bj u v
        = ![ai u * aj v - ai v * aj u, ai u * bj v - ai v * bj u,
            bi u * aj v - bi v * aj u, bi u * bj v - bi v * bj u]) ∧
    (∀ (x : T) (u2 v2 : Vector3 T),
      fetzer_ds (fun M => (svd M).withThird x u2 v2) G = fetzer_ds svd G) := by
  refine ⟨?_, fun _ _ _ _ _ _ => rfl, ?_⟩
  · funext i j
    fin_cases i <;> fin_cases j <;> simp [fetzer_ds, fetzer_d] <;> ring
  · intro x u2 v2
    simp only [fetzer_ds, withThird_singularValues_zero, withThird_singularValues_one,
      withThird_matrixU_zero, withThird_matrixU_one, withThird_matrixV_zero,
      withThird_matrixV_one]

/-- C13: `fetzer_d` is antisymmetric in its index pair, and so vanishes on a repeated
index. -/
theorem fetzer_d_antisymm {T : Type} [Field T] (ai bi aj bj : Vector3 T) (u v : Fin 3) :
    fetzer_d ai bi aj bj v u = -fetzer_d ai bi aj bj u v ∧
    fetzer_d ai bi aj bj u u = 0 := by
  constructor
  · funext k
    fin_cases k <;> simp [fetzer_d]
  · funext k
    fin_cases k <;> simp [fetzer_d]

/-! ## The matrix the constructors decompose -/

theorem geometryMatrix_eq {T : Type} [Field T] (F : Matrix3 T) (pp0 pp1 : Vector2 T) :
    geometryMatrix F pp0 pp1
      = (!![1, 0, pp1 0; 0, 1, pp1 1; 0, 0, 1] : Matrix3 T).transpose * F
        * !![1, 0, pp0 0; 0, 1, pp0 1; 0, 0, 1] := by
  simp only [geometryMatrix, setCoeff_identity]

theorem geometryMatrix_block {T : Type} [Field T] (F : Matrix3 T) (pp0 pp1 : Vector2 T) :
    geometryMatrix F pp0 pp1 0 0 = F 0 0 ∧ geometryMatrix F pp0 pp1 0 1 = F 0 1 ∧
    geometryMatrix F pp0 pp1 1 0 = F 1 0 ∧ geometryMatrix F pp0 pp1 1 1 = F 1 1 := by
  rw [geometryMatrix_eq]
  refine ⟨?_, ?_, ?_, ?_⟩ <;>
    simp only [Matrix.mul_apply, Fin.sum_univ_three, Matrix.transpose_apply, Matrix.of_apply,
      Matrix.cons_val', Matrix.cons_val_zero, Matrix.cons_val_one, Matrix.head_cons,
      Matrix.cons_val_two, Matrix.tail_cons, Matrix.empty_val', Matrix.cons_val_fin_one] <;>
    simp only [Matrix.vecHead] <;>
    ring

theorem geometryMatrix_zero {T : Type} [Field T] (F : Matrix3 T) :
    geometryMatrix F 0 0 = F := by
  rw [geometryMatrix_eq]
  simp only [Pi.zero_apply, ← Matrix.one_fin_three, Matrix.transpose_one, Matrix.one_mul,
    Matrix.mul_one]

/-- C14: the two-camera constructor decomposes `G = K1ᵀ F K0`, `Ki` being the identity with
entries `(0,2)`, `(1,2)` replaced by the `i`-th principal point, and nothing else; the
upper-left 2×2 block of `G` is that of `F`, and `G = F` when both principal points are
zero; the same-camera constructor does the same with `pp0 = pp1`. -/
theorem constructor_geometry_matrix {T : Type} [Field T] (svd : Matrix3 T → JacobiSVD T)
    (F : Matrix3 T) (pp0 pp1 pp : Vector2 T) :
    (FetzerFocalLengthCost.new svd F pp0 pp1
      = { d_01 := fetzer_ds svd ((!![1, 0, pp1 0; 0, 1, pp1 1; 0, 0, 1] : Matrix3 T).transpose
            * F * !![1, 0, pp0 0; 0, 1, pp0 1; 0, 0, 1]) 0
          d_02 := fetzer_ds svd ((!![1, 0, pp1 0; 0, 1, pp1 1; 0, 0, 1] : Matrix3 T).transpose
            * F * !![1, 0, pp0 0; 0, 1, pp0 1; 0, 0, 1]) 1
          d_12 := fetzer_ds svd ((!![1, 0, pp1 0; 0, 1, pp1 1; 0, 0, 1] : Matrix3 T).transpose
            * F * !![1, 0, pp0 0; 0, 1, pp0 1; 0, 0, 1]) 2 }) ∧
    (FetzerFocalLengthCost.new svd F pp0 pp1
      = FetzerFocalLengthCost.new
          (fun _ => svd ((!![1, 0, pp1 0; 0, 1, pp1 1; 0, 0, 1] : Matrix3 T).transpose
            * F * !![1, 0, pp0 0; 0, 1, pp0 1; 0, 0, 1])) F pp0 pp1) ∧
    (((!![1, 0, pp1 0; 0, 1, pp1 1; 0, 0, 1] : Matrix3 T).transpose
        * F * !![1, 0, pp0 0; 0, 1, pp0 1; 0, 0, 1]) 0 0 = F 0 0 ∧
     ((!![1, 0, pp1 0; 0, 1, pp1 1; 0, 0, 1] : Matrix3 T).transpose
        * F * !![1, 0, pp0 0; 0, 1, pp0 1; 0, 0, 1]) 0 1 = F 0 1 ∧
     ((!![1, 0, pp1 0; 0, 1, pp1 1; 0, 0, 1] : Matrix3 T).transpose
        * F * !![1, 0, pp0 0; 0, 1, pp0 1; 0, 0, 1]) 1 0 = F 1 0 ∧
     ((!![1, 0, pp1 0; 0, 1, pp1 1; 0, 0, 1] : Matrix3 T).transpose
        * F * !![1, 0, pp0 0; 0, 1, pp0 1; 0, 0, 1]) 1 1 = F 1 1) ∧
    ((!![1, 0, (0 : Vector2 T) 0; 0, 1, (0 : Vector2 T) 1; 0, 0, 1] : Matrix3 T).transpose
        * F * !![1, 0, (0 : Vector2 T) 0; 0, 1, (0 : Vector2 T) 1; 0, 0, 1] = F) ∧
    (FetzerFocalLengthSameCameraCost.new svd F pp
      = { d_01 := fetzer_ds svd ((!![1, 0, pp 0; 0, 1, pp 1; 0, 0, 1] : Matrix3 T).transpose
            * F * !![1, 0, pp 0; 0, 1, pp 1; 0, 0, 1]) 0
          d_02 := fetzer_ds svd ((!![1, 0, pp 0; 0, 1, pp 1; 0, 0, 1] : Matrix3 T).transpose
            * F * !![1, 0, pp 0; 0, 1, pp 1; 0, 0, 1]) 1
          d_12 := fetzer_ds svd ((!![1, 0, pp 0; 0, 1, pp 1; 0, 0, 1] : Matrix3 T).transpose
            * F * !![1, 0, pp 0; 0, 1, pp 1; 0, 0, 1]) 2 }) := by
  have hblock := geometryMatrix_block F pp0 pp1
  have hzero := geometryMatrix_zero F
  rw [geometryMatrix_eq] at hblock hzero
  refine ⟨?_, ?_, hblock, hzero, ?_⟩
  · rw [fetzer_new_eq, geometryMatrix_eq]
  · rw [fetzer_new_eq, fetzer_new_eq, geometryMatrix_eq]
    rfl
  · rw [sameCamera_new_eq, geometryMatrix_eq]

/-! ## Invariances of the Fetzer residuals -/

theorem flipPair_singularValues {T : Type} [Field T] (r : JacobiSVD T) (c : Fin 3) :
    (r.flipPair c).singularValues = r.singularValues :=
  rfl

theorem flipPair_matrixU {T : Type} [Field T] (r : JacobiSVD T) (c : Fin 3) (i j : Fin 3) :
    (r.flipPair c).matrixU i j = if j = c then -r.matrixU i j else r.matrixU i j :=
  rfl

theorem flipPair_matrixV {T : Type} [Field T] (r : JacobiSVD T) (c : Fin 3) (i j : Fin 3) :
    (r.flipPair c).matrixV i j = if j = c then -r.matrixV i j else r.matrixV i j :=
  rfl

theorem fetzer_ds_flipPair_zero {T : Type} [Field T] (svd : Matrix3 T → JacobiSVD T)
    (G : Matrix3 T) :
    fetzer_ds (fun M => (svd M).flipPair 0) G 0 = -fetzer_ds svd G 0 ∧
    fetzer_ds (fun M => (svd M).flipPair 0) G 1 = fetzer_ds svd G 1 ∧
    fetzer_ds (fun M => (svd M).flipPair 0) G 2 = -fetzer_ds svd G 2 := by
  refine ⟨?_, ?_, ?_⟩ <;>
  · funext k
    fin_cases k <;>
      simp [fetzer_ds, fetzer_d, flipPair_singularValues, flipPair_matrixU,
        flipPair_matrixV] <;>
      ring

theorem fetzer_ds_flipPair_one {T : Type} [Field T] (svd : Matrix3 T → JacobiSVD T)
    (G : Matrix3 T) :
    fetzer_ds (fun M => (svd M).flipPair 1) G 0 = -fetzer_ds svd G 0 ∧
    fetzer_ds (fun M => (svd M).flipPair 1) G 1 = fetzer_ds svd G 1 ∧
    fetzer_ds (fun M => (svd M).flipPair 1) G 2 = -fetzer_ds svd G 2 := by
  refine ⟨?_, ?_, ?_⟩ <;>
  · funext k
    fin_cases k <;>
      simp [fetzer_ds, fetzer_d, flipPair_singularValues, flipPair_matrixU,
        flipPair_matrixV] <;>
      ring

theorem fetzer_operator_neg {T : Type} [Field T] (d_01 d_02 d_02' d_12 : Vector4 T)
    (fi fj : T) :
    (FetzerFocalLengthCost.mk (-d_01) d_02' (-d_12)).operator fi fj
      = (FetzerFocalLengthCost.mk d_01 d_02 d_12).operator fi fj := by
  have h0 : -(fj * fj * -d_01 2 + -d_01 3) / (fj * fj * -d_01 0 + -d_01 1)
      = -(fj * fj * d_01 2 + d_01 3) / (fj * fj * d_01 0 + d_01 1) := by
    have e1 : fj * fj * -d_01 2 + -d_01 3 = -(fj * fj * d_01 2 + d_01 3) := by ring
    have e2 : fj * fj * -d_01 0 + -d_01 1 = -(fj * fj * d_01 0 + d_01 1) := by ring
    rw [e1, e2, neg_div_neg_eq]
  have h1 : -(fi * fi * -d_12 1 + -d_12 3) / (fi * fi * -d_12 0 + -d_12 2)
      = -(fi * fi * d_12 1 + d_12 3) / (fi * fi * d_12 0 + d_12 2) := by
    have e1 : fi * fi * -d_12 1 + -d_12 3 = -(fi * fi * d_12 1 + d_12 3) := by ring
    have e2 : fi * fi * -d_12 0 + -d_12 2 = -(fi * fi * d_12 0 + d_12 2) := by ring
    rw [e1, e2, neg_div_neg_eq]
  simp only [FetzerFocalLengthCost.operator, Pi.neg_apply, h0, h1]

theorem sameCamera_operator_eq {T : Type} [Field T] (d_01 d_02 d_12 : Vector4 T) (f : T) :
    (FetzerFocalLengthSameCameraCost.mk d_01 d_02 d_12).operator f
      = (FetzerFocalLengthCost.mk d_01 d_02 d_12).operator f f :=
  rfl

/-- C15: replacing the singular vector pair `(u0, v0)` by `(-u0, -v0)`, or `(u1, v1)` by
`(-u1, -v1)`, negates `d_01` and `d_12`, leaves `d_02` unchanged, and leaves the results of
both call operators unchanged for every focal length. -/
theorem fetzer_sign_invariance {T : Type} [Field T] (svd : Matrix3 T → JacobiSVD T)
    (G F : Matrix3 T) (pp0 pp1 pp : Vector2 T) (fi fj : T) :
    (fetzer_ds (fun M => (svd M).flipPair 0) G 0 = -fetzer_ds svd G 0 ∧
     fetzer_ds (fun M => (svd M).flipPair 0) G 1 = fetzer_ds svd G 1 ∧
     fetzer_ds (fun M => (svd M).flipPair 0) G 2 = -fetzer_ds svd G 2) ∧
    (fetzer_ds (fun M => (svd M).flipPair 1) G 0 = -fetzer_ds svd G 0 ∧
     fetzer_ds (fun M => (svd M).flipPair 1) G 1 = fetzer_ds svd G 1 ∧
     fetzer_ds (fun M => (svd M).flipPair 1) G 2 = -fetzer_ds svd G 2) ∧
    ((FetzerFocalLengthCost.new (fun M => (svd M).flipPair 0) F pp0 pp1).operator fi fj
        = (FetzerFocalLengthCost.new svd F pp0 pp1).operator fi fj ∧
     (FetzerFocalLengthCost.new (fun M => (svd M).flipPair 1) F pp0 pp1).operator fi fj
        = (FetzerFocalLengthCost.new svd F pp0 pp1).operator fi fj) ∧
    ((FetzerFocalLengthSameCameraCost.new (fun M => (svd M).flipPair 0) F pp).operator fi
        = (FetzerFocalLengthSameCameraCost.new svd F pp).operator fi ∧
     (FetzerFocalLengthSameCameraCost.new (fun M => (svd M).flipPair 1) F pp).operator fi
        = (FetzerFocalLengthSameCameraCost.new svd F pp).operator fi) := by
  refine ⟨fetzer_ds_flipPair_zero svd G, fetzer_ds_flipPair_one svd G, ⟨?_, ?_⟩, ⟨?_, ?_⟩⟩
  · obtain ⟨e0, _, e2⟩ := fetzer_ds_flipPair_zero svd (geometryMatrix F pp0 pp1)
    rw [fetzer_new_eq, fetzer_new_eq, e0, e2]
    exact fetzer_operator_neg _ _ _ _ fi fj
  · obtain ⟨e0, _, e2⟩ := fetzer_ds_flipPair_one svd (geometryMatrix F pp0 pp1)
    rw [fetzer_new_eq, fetzer_new_eq, e0, e2]
    exact fetzer_operator_neg _ _ _ _ fi fj
  · obtain ⟨e0, _, e2⟩ := fetzer_ds_flipPair_zero svd (geometryMatrix F pp pp)
    rw [sameCamera_new_eq, sameCamera_new_eq, e0, e2, sameCamera_operator_eq,
      sameCamera_operator_eq]
    exact fetzer_operator_neg _ _ _ _ fi fi
  · obtain ⟨e0, _, e2⟩ := fetzer_ds_flipPair_one svd (geometryMatrix F pp pp)
    rw [sameCamera_new_eq, sameCamera_new_eq, e0, e2, sameCamera_operator_eq,
      sameCamera_operator_eq]
    exact fetzer_operator_neg _ _ _ _ fi fi

theorem fetzer_ds_scaleLeading {T : Type} [Field T] (svd : Matrix3 T → JacobiSVD T)
    (G : Matrix3 T) (c x : T) (i : Fin 3) :
    fetzer_ds (fun M => (svd M).scaleLeading c x) G i = c ^ 2 • fetzer_ds svd G i := by
  funext k
  fin_cases i <;> fin_cases k <;>
    simp [fetzer_ds, fetzer_d, JacobiSVD.scaleLeading] <;>
    ring

theorem fetzer_operator_smul {T : Type} [Field T] (k : T) (hk : k ≠ 0)
    (d_01 d_02 d_02' d_12 : Vector4 T) (fi fj : T) :
    (FetzerFocalLengthCost.mk (k • d_01) d_02' (k • d_12)).operator fi fj
      = (FetzerFocalLengthCost.mk d_01 d_02 d_12).operator fi fj := by
  have h0 : -(fj * fj * (k * d_01 2) + k * d_01 3) / (fj * fj * (k * d_01 0) + k * d_01 1)
      = -(fj * fj * d_01 2 + d_01 3) / (fj * fj * d_01 0 + d_01 1) := by
    have e1 : -(fj * fj * (k * d_01 2) + k * d_01 3) = k * -(fj * fj * d_01 2 + d_01 3) := by
      ring
    have e2 : fj * fj * (k * d_01 0) + k * d_01 1 = k * (fj * fj * d_01 0 + d_01 1) := by
      ring
    rw [e1, e2, mul_div_mul_left _ _ hk]
  have h1 : -(fi * fi * (k * d_12 1) + k * d_12 3) / (fi * fi * (k * d_12 0) + k * d_12 2)
      = -(fi * fi * d_12 1 + d_12 3) / (fi * fi * d_12 0 + d_12 2) := by
    have e1 : -(fi * fi * (k * d_12 1) + k * d_12 3) = k * -(fi * fi * d_12 1 + d_12 3) := by
      ring
    have e2 : fi * fi * (k * d_12 0) + k * d_12 2 = k * (fi * fi * d_12 0 + d_12 2) := by
      ring
    rw [e1, e2, mul_div_mul_left _ _ hk]
  simp only [FetzerFocalLengthCost.operator, Pi.smul_apply, smul_eq_mul, h0, h1]

/-- C16: for `λ ≠ 0`, replacing the leading singular values `(s0, s1)` by `(|λ| s0, |λ| s1)`
with the same singular vectors multiplies each of `d_01`, `d_02`, `d_12` by `λ²` and leaves
the result of the two-camera call operator unchanged for every `fi`, `fj`. -/
theorem fetzer_scale_invariance {T : Type} [LinearOrderedField T]
    (svd : Matrix3 T → JacobiSVD T) (G F : Matrix3 T) (pp0 pp1 : Vector2 T) (fi fj : T)
    (lam x : T) (hlam : lam ≠ 0) :
    (∀ i : Fin 3,
      fetzer_ds (fun M => (svd M).scaleLeading |lam| x) G i = lam ^ 2 • fetzer_ds svd G i) ∧
    (FetzerFocalLengthCost.new (fun M => (svd M).scaleLeading |lam| x) F pp0 pp1).operator
        fi fj
      = (FetzerFocalLengthCost.new svd F pp0 pp1).operator fi fj := by
  constructor
  · intro i
    rw [fetzer_ds_scaleLeading, sq_abs]
  · rw [fetzer_new_eq, fetzer_new_eq, fetzer_ds_scaleLeading, fetzer_ds_scaleLeading,
      fetzer_ds_scaleLeading]
    exact fetzer_operator_smul (|lam| ^ 2) (pow_ne_zero 2 (abs_ne_zero.mpr hlam)) _ _ _ _ fi fj

/-- C16, at a concrete input: the sample geometry, `λ = -2`, third singular value kept at
`0`, focal lengths `3` and `5`. -/
theorem fetzer_scale_invariance_witness :
    (-2 : ℚ) ≠ 0 ∧
    (∀ i : Fin 3,
      fetzer_ds (fun M => (sampleSvd M).scaleLeading |(-2 : ℚ)| 0) sampleG i
        = (-2 : ℚ) ^ 2 • fetzer_ds sampleSvd sampleG i) ∧
    (FetzerFocalLengthCost.new (fun M => (sampleSvd M).scaleLeading |(-2 : ℚ)| 0)
        sampleF samplePP samplePP).operator 3 5
      = (FetzerFocalLengthCost.new sampleSvd sampleF samplePP samplePP).operator 3 5 :=
  ⟨by norm_num,
    fetzer_scale_invariance sampleSvd sampleG sampleF samplePP samplePP 3 5 (-2) 0
      (by norm_num)⟩

/-! ## BATAPairwiseDirectionError: dependence on the positions -/

/-- C17: shifting both positions by the same vector does not change the result of the call
operator. -/
theorem bata_shift_invariance {T : Type} [Field T] (t_obs position1 position2 c : Vector3 T)
    (scale : T) :
    (BATAPairwiseDirectionError.mk t_obs).operator (position1 + c) (position2 + c) scale
      = (BATAPairwiseDirectionError.mk t_obs).operator position1 position2 scale := by
  refine Prod.ext rfl ?_
  funext k
  rw [bata_residual_apply, bata_residual_apply]
  simp only [Pi.add_apply]
  ring

/-! ## Fetzer decomposition helper: rank-one input -/

/-- C18: when the second singular value is zero, `fetzer_ds` returns `d_12 = 0`, whatever
`s0` and the singular vectors; in the two-camera functor built from such a matrix the
numerator `fi² d_12(1) + d_12(3)` and the denominator `fi² d_12(0) + d_12(2)` of `K1_12`
are both zero for every `fi`. -/
theorem fetzer_rank_one {T : Type} [Field T] (svd : Matrix3 T → JacobiSVD T)
    (G F : Matrix3 T) (pp0 pp1 : Vector2 T)
    (hG : (svd G).singularValues 1 = 0)
    (hF : (svd (geometryMatrix F pp0 pp1)).singularValues 1 = 0) :
    fetzer_ds svd G 2 = 0 ∧
    (FetzerFocalLengthCost.new svd F pp0 pp1).d_12 = 0 ∧
    ∀ fi : T,
      fi ^ 2 * (FetzerFocalLengthCost.new svd F pp0 pp1).d_12 1
        + (FetzerFocalLengthCost.new svd F pp0 pp1).d_12 3 = 0 ∧
      fi ^ 2 * (FetzerFocalLengthCost.new svd F pp0 pp1).d_12 0
        + (FetzerFocalLengthCost.new svd F pp0 pp1).d_12 2 = 0 := by
  have key : ∀ M : Matrix3 T, (svd M).singularValues 1 = 0 → fetzer_ds svd M 2 = 0 := by
    intro M hM
    funext k
    fin_cases k <;> simp [fetzer_ds, fetzer_d, hM]
  have hd : (FetzerFocalLengthCost.new svd F pp0 pp1).d_12 = 0 := by
    rw [fetzer_new_eq]
    exact key _ hF
  refine ⟨key G hG, hd, ?_⟩
  intro fi
  rw [hd]
  simp

/-- C18, at a concrete input: a routine returning singular values `(9, 0, 0)` with the
sample singular vectors. -/
theorem fetzer_rank_one_witness :
    (sampleSvdRankOne sampleG).singularValues 1 = 0 ∧
    fetzer_ds sampleSvdRankOne sampleG 2 = 0 ∧
    (FetzerFocalLengthCost.new sampleSvdRankOne sampleF samplePP samplePP).d_12 = 0 :=
  ⟨rfl,
    (fetzer_rank_one sampleSvdRankOne sampleG sampleF samplePP samplePP rfl rfl).1,
    (fetzer_rank_one sampleSvdRankOne sampleG sampleF samplePP samplePP rfl rfl).2.1⟩

end glomap
